import Mathlib

/-!
Shallow embedding of the Delta xDS server stream processor from
`pkg/server/delta/v2/server.go` (go-control-plane).

The per-stream processor `processDelta` is an event loop over a state
consisting of the per-type stream states, the muxed response channel
(modelled as a FIFO list), the per-type cancel handles and the per-type
last-sent nonces.  External nondeterminism (request arrival, response
arrival on the muxed channel, context cancellation, channel closure) is
modelled as a list of `LoopEvent`s consumed one per loop iteration.
Observable actions (callback invocations, transport sends, watch
creations and cancellations, log lines) are recorded in a trace of
`Effect`s.  The cache's `CreateDeltaWatch` is modelled as returning a
fresh cancel handle identified by a counter; the callbacks and the
transport `Send` are modelled as oracles carried in `Config`.

Go's `int64` stream nonce counter is modelled as `Nat`; its overflow at
2^63 is not modelled (one increment per response sent on a single
stream cannot reach it).
-/

namespace DeltaServer

/-- Association-list lookup with Go map semantics: `m[k]` with comma-ok. -/
def alookup {α : Type} : List (String × α) → String → Option α
  | [], _ => none
  | (k, v) :: t, k' => if k = k' then some v else alookup t k'

/-- Association-list insert with Go map semantics: `m[k] = v` replaces the
existing binding or appends a new one. -/
def ainsert {α : Type} : List (String × α) → String → α → List (String × α)
  | [], k, v => [(k, v)]
  | (k0, v0) :: t, k, v =>
    if k0 = k then (k, v) :: t else (k0, v0) :: ainsert t k v

/-- Opaque client identity (`core.Node`); only identity matters here. -/
structure Node where
  id : String
deriving DecidableEq, Repr

/-- The zero node `&core.Node{}` that `processDelta` starts with. -/
def emptyNode : Node := ⟨""⟩

/-- `discovery.DeltaDiscoveryRequest`, restricted to the fields the
processor reads: `Node`, `TypeUrl`, `ResponseNonce`,
`ResourceNamesUnsubscribe`, `ErrorDetail` (its `String()` form). -/
structure DeltaDiscoveryRequest where
  node : Option Node
  typeUrl : String
  responseNonce : String
  resourceNamesUnsubscribe : List String
  errorDetail : Option String
deriving DecidableEq, Repr

/-- `discovery.DeltaDiscoveryResponse`: the nonce the processor stamps
plus an opaque payload standing for the remaining fields. -/
structure DeltaDiscoveryResponse where
  nonce : String
  payload : String
deriving DecidableEq, Repr

/-- `stream.StreamState`: per-type nonce, system version and
resource-version map. -/
structure StreamState where
  nonce : String
  systemVersion : String
  resourceVersions : List (String × String)
deriving DecidableEq, Repr

/-- The zero value `stream.StreamState{}`. -/
def zeroStreamState : StreamState := ⟨"", "", []⟩

/-- A `cache.DeltaResponse` as delivered on the muxed channel: the
originating request plus the three fallible getters the processor
calls (`GetDeltaDiscoveryResponse`, `GetSystemVersion`,
`GetDeltaVersionMap`). -/
structure DeltaResponse where
  req : DeltaDiscoveryRequest
  ddr : Except String DeltaDiscoveryResponse
  systemVersion : Except String String
  versionMap : Except String (List (String × String))

/-- Stream-terminal errors the processor can return. -/
inductive Err
  | missingResponse
  | marshalError (msg : String)
  | sendError (msg : String)
  | systemVersionError (msg : String)
  | versionMapError (msg : String)
  | callbackError (msg : String)
  | unavailable (msg : String)
  | invalidArgument (msg : String)
deriving DecidableEq, Repr

/-- Observable actions of the processor, recorded in order. -/
inductive Effect
  | loggedError (msg : String)
  | loggedDebug (msg : String)
  | onDeltaStreamOpen (typeUrl : String)
  | onDeltaStreamClosed
  | onStreamDeltaRequest (req : DeltaDiscoveryRequest)
  | onStreamDeltaResponse (req : DeltaDiscoveryRequest) (resp : DeltaDiscoveryResponse)
  | sentResponse (resp : DeltaDiscoveryResponse)
  | cancelInvoked (id : Nat)
  | createdWatch (typeUrl : String) (id : Nat)
deriving DecidableEq, Repr

/-- Modelled from the spec: `resource.AnyType`, the distinguished marker
for Aggregated (ADS) mode; in go-control-plane it is the empty string.
The package `pkg/resource/v2` is not among the provided sources. -/
def AnyType : String := ""

/-- Server configuration and environment oracles: whether callbacks and
a logger are installed, the default type URL, the closed set of known
resource type URLs used to pre-populate the stream states
(`initStreamState`), and the results of the fallible callback and
transport-send operations. -/
structure Config where
  hasCallbacks : Bool
  hasLog : Bool
  defaultTypeURL : String
  knownTypeUrls : List String
  onDeltaStreamOpenErr : Option String
  onStreamDeltaRequestErr : DeltaDiscoveryRequest → Option String
  sendErr : DeltaDiscoveryResponse → Option String

/-- The mutable per-stream state of `processDelta`: the nonce counter,
the remembered node, the fresh-handle counter for modelled watches, and
the `watches` struct (stream states, muxed response channel contents,
cancellations, nonces). -/
structure ProcState where
  streamNonce : Nat
  node : Node
  nextWatchId : Nat
  deltaStreamStates : List (String × StreamState)
  deltaResponses : List (Option DeltaResponse)
  deltaCancellations : List (String × Option Nat)
  deltaNonces : List (String × String)

/-- `initStreamState`: pre-populate one zero entry per known type URL. -/
def initStreamState (typeUrls : List String) : List (String × StreamState) :=
  typeUrls.map fun t => (t, zeroStreamState)

/-- The state of `processDelta` right after `values.Init`. -/
def initState (cfg : Config) : ProcState :=
  { streamNonce := 0
    node := emptyNode
    nextWatchId := 0
    deltaStreamStates := initStreamState cfg.knownTypeUrls
    deltaResponses := []
    deltaCancellations := []
    deltaNonces := [] }

/-- `send`: serialize, stamp the next nonce, invoke the response
callback, forward to the transport.  Returns (nonce, error, new state,
effects); the nonce counter is incremented exactly when serialization
succeeded, mirroring the source. -/
def send (cfg : Config) (s : ProcState) (resp : Option DeltaResponse) :
    String × Option Err × ProcState × List Effect :=
  match resp with
  | none => ("", some .missingResponse, s, [])
  | some r =>
    match r.ddr with
    | .error e => ("", some (.marshalError e), s, [])
    | .ok out0 =>
      let n := s.streamNonce + 1
      let out : DeltaDiscoveryResponse := { out0 with nonce := toString n }
      let s1 : ProcState := { s with streamNonce := n }
      let cbEffs : List Effect :=
        if cfg.hasCallbacks then [Effect.onStreamDeltaResponse r.req out] else []
      match cfg.sendErr out with
      | some e => (out.nonce, some (.sendError e), s1, cbEffs ++ [Effect.sentResponse out])
      | none => (out.nonce, none, s1, cbEffs ++ [Effect.sentResponse out])

/-- `update`: derive the replacement stream state from a response.  On
failure it returns the zero `StreamState` together with the error,
exactly as the source's `return stream.StreamState{}, err`. -/
def update (r : DeltaResponse) (nonce : String) : StreamState × Option Err :=
  match r.systemVersion with
  | .error e => (zeroStreamState, some (.systemVersionError e))
  | .ok sv =>
    match r.versionMap with
    | .error e => (zeroStreamState, some (.versionMapError e))
    | .ok vm => ({ nonce := nonce, systemVersion := sv, resourceVersions := vm }, none)

/-- `process`: send the response, record the new nonce, null the cancel
handle, and apply the new stream state.  The Go multi-assignment
`values.deltaStreamStates[typeURL], err = update(resp, nonce)` stores
the first return value of `update` even when `err` is non-nil, so on
update failure the entry is overwritten with the zero stream state. -/
def process (cfg : Config) (s : ProcState) (resp : Option DeltaResponse) :
    Option Err × ProcState × List Effect :=
  match send cfg s resp with
  | (_, some e, s1, effs) => (some e, s1, effs)
  | (nonce, none, s1, effs) =>
    match resp with
    | none => (some .missingResponse, s1, effs)
    | some r =>
      let t := r.req.typeUrl
      let s2 : ProcState :=
        { s1 with
          deltaNonces := ainsert s1.deltaNonces t nonce
          deltaCancellations := ainsert s1.deltaCancellations t none }
      let su := update r nonce
      let s3 : ProcState :=
        { s2 with deltaStreamStates := ainsert s2.deltaStreamStates t su.1 }
      match su.2 with
      | some e => (some e, s3, effs)
      | none => (none, s3, effs)

/-- The drain loop of `processAll`: receive every already-enqueued
response and `process` it, stopping at the first error (the remaining
responses stay in the channel). -/
def drainAux (cfg : Config) : List (Option DeltaResponse) → ProcState →
    Option Err × ProcState × List Effect
  | [], s => (none, s, [])
  | r :: rest, s =>
    match process cfg { s with deltaResponses := rest } r with
    | (some e, s1, effs) => (some e, s1, effs)
    | (none, s1, effs) =>
      match drainAux cfg rest s1 with
      | (e2, s2, effs2) => (e2, s2, effs ++ effs2)

/-- `processAll`: non-blocking drain of the muxed response channel. -/
def processAll (cfg : Config) (s : ProcState) : Option Err × ProcState × List Effect :=
  drainAux cfg s.deltaResponses s

/-- The `req.ErrorDetail` logging step at the top of request handling. -/
def errorDetailLog (cfg : Config) (req : DeltaDiscoveryRequest) : List Effect :=
  match req.errorDetail with
  | some d => if cfg.hasLog then [Effect.loggedError ("received error from envoy: " ++ d)] else []
  | none => []

/-- Node rehydration: a request with a node replaces the remembered
node; a request without one is filled from the remembered node. -/
def rehydrateNode (s : ProcState) (req : DeltaDiscoveryRequest) :
    ProcState × DeltaDiscoveryRequest :=
  match req.node with
  | some n => ({ s with node := n }, req)
  | none => (s, { req with node := some s.node })

/-- Type-URL policing: in Aggregated mode an empty type URL is
INVALID_ARGUMENT; in single-type mode it is filled with the default. -/
def policeTypeUrl (cfg : Config) (req : DeltaDiscoveryRequest) :
    Except Err DeltaDiscoveryRequest :=
  if cfg.defaultTypeURL = AnyType then
    if req.typeUrl = "" then .error (.invalidArgument "type URL is required for ADS")
    else .ok req
  else if req.typeUrl = "" then .ok { req with typeUrl := cfg.defaultTypeURL }
  else .ok req

/-- `server.unsubscribe` deletes each named resource from the given
version map, logging each deletion at debug level. -/
def removeResources (vm : List (String × String)) (u : List String) :
    List (String × String) :=
  vm.filter fun p => ¬ u.contains p.1

/-- The debug log lines emitted by `unsubscribe`. -/
def unsubscribeLog (cfg : Config) (u : List String) : List Effect :=
  if cfg.hasLog then u.map (fun r => Effect.loggedDebug ("unsubscribing from resource: " ++ r))
  else []

/-- The unsubscribe step: for a non-empty unsubscribe list, delete the
names from the version map of the matching stream-state entry.  A
missing entry yields the zero value whose nil map makes deletion a
no-op, so the state is unchanged. -/
def applyUnsubscribe (cfg : Config) (s : ProcState) (req : DeltaDiscoveryRequest) :
    ProcState × List Effect :=
  match req.resourceNamesUnsubscribe with
  | [] => (s, [])
  | u =>
    let effs := unsubscribeLog cfg u
    match alookup s.deltaStreamStates req.typeUrl with
    | none => (s, effs)
    | some ss =>
      ({ s with
          deltaStreamStates := ainsert s.deltaStreamStates req.typeUrl
            { ss with resourceVersions := removeResources ss.resourceVersions u } },
       effs)

/-- The watch-reconciliation test `!seen || responseNonce == nonce`. -/
def nonceCond (s : ProcState) (typeUrl nonce : String) : Bool :=
  match alookup s.deltaNonces typeUrl with
  | none => true
  | some rn => rn == nonce

/-- Watch reconciliation: when the nonce condition holds, cancel any
existing non-nil handle, drain the muxed channel, and register a fresh
watch with the cache; otherwise leave everything in place. -/
def reconcile (cfg : Config) (s : ProcState) (typeUrl nonce : String) :
    Option Err × ProcState × List Effect :=
  if nonceCond s typeUrl nonce then
    let afterCancel : Option Err × ProcState × List Effect :=
      match alookup s.deltaCancellations typeUrl with
      | some (some cid) =>
        match processAll cfg s with
        | (e, s1, effs) => (e, s1, Effect.cancelInvoked cid :: effs)
      | _ => (none, s, [])
    match afterCancel with
    | (some e, s1, effs) => (some e, s1, effs)
    | (none, s1, effs) =>
      let wid := s1.nextWatchId
      (none,
       { s1 with
          nextWatchId := wid + 1
          deltaCancellations := ainsert s1.deltaCancellations typeUrl (some wid) },
       effs ++ [Effect.createdWatch typeUrl wid])
  else (none, s, [])

/-- The request-handling arm of the main select (`case req, more :=
<-reqCh` after the nil checks): log a NACK detail, rehydrate the node,
police the type URL, apply unsubscribes, invoke the request callback,
and reconcile the watch. -/
def handleRequest (cfg : Config) (s : ProcState) (req0 : DeltaDiscoveryRequest) :
    Option Err × ProcState × List Effect :=
  let logEffs := errorDetailLog cfg req0
  let sr := rehydrateNode s req0
  let nonce := sr.2.responseNonce
  match policeTypeUrl cfg sr.2 with
  | .error e => (some e, sr.1, logEffs)
  | .ok req2 =>
    let su := applyUnsubscribe cfg sr.1 req2
    let cbEffs : List Effect :=
      if cfg.hasCallbacks then [Effect.onStreamDeltaRequest req2] else []
    match (if cfg.hasCallbacks then cfg.onStreamDeltaRequestErr req2 else none) with
    | some e => (some (.callbackError e), su.1, logEffs ++ su.2 ++ cbEffs)
    | none =>
      match reconcile cfg su.1 req2.typeUrl nonce with
      | (err, s3, recEffs) => (err, s3, logEffs ++ su.2 ++ cbEffs ++ recEffs)

/-- External occurrences the main select can react to. -/
inductive LoopEvent
  | ctxDone
  | deliverResponse
  | enqueue (resp : Option DeltaResponse)
  | request (req : DeltaDiscoveryRequest)
  | nilRequest
  | reqChClosed

/-- Outcome of one loop iteration: keep looping, or return. -/
inductive StepResult
  | next (s : ProcState) (effs : List Effect)
  | stop (err : Option Err) (s : ProcState) (effs : List Effect)

/-- One iteration of the main select of `processDelta`.  `enqueue`
models a cache producer appending to the muxed channel;
`deliverResponse` fires the response arm when the channel is
non-empty. -/
def stepLoop (cfg : Config) (s : ProcState) (ev : LoopEvent) : StepResult :=
  match ev with
  | .ctxDone =>
    .stop none s
      (if cfg.hasLog then [Effect.loggedDebug "received signal to end! closing delta processor..."]
       else [])
  | .enqueue r => .next { s with deltaResponses := s.deltaResponses ++ [r] } []
  | .deliverResponse =>
    match s.deltaResponses with
    | [] => .next s []
    | r :: rest =>
      match process cfg { s with deltaResponses := rest } r with
      | (some e, s1, effs) => .stop (some e) s1 effs
      | (none, s1, effs) => .next s1 effs
  | .reqChClosed => .stop none s []
  | .nilRequest => .stop (some (.unavailable "empty request")) s []
  | .request req =>
    match handleRequest cfg s req with
    | (some e, s1, effs) => .stop (some e) s1 effs
    | (none, s1, effs) => .next s1 effs

/-- Run the main loop over a list of events.  The first component is
`none` while the loop is still running (events exhausted) and `some
err` when the loop returned. -/
def runLoop (cfg : Config) : List LoopEvent → ProcState →
    Option (Option Err) × ProcState × List Effect
  | [], s => (none, s, [])
  | ev :: evs, s =>
    match stepLoop cfg s ev with
    | .next s1 effs =>
      match runLoop cfg evs s1 with
      | (o, s2, effs2) => (o, s2, effs ++ effs2)
    | .stop err s1 effs => (some err, s1, effs)

/-- The deferred teardown: invoke every non-nil cancel handle
(`values.Cancel`) and then the stream-closed callback. -/
def teardown (cfg : Config) (s : ProcState) : List Effect :=
  (s.deltaCancellations.filterMap fun p => Option.map Effect.cancelInvoked p.2)
  ++ (if cfg.hasCallbacks then [Effect.onDeltaStreamClosed] else [])

/-- `processDelta` as a whole: the deferred teardown is installed, the
stream-open callback runs (its failure returns immediately, through the
deferred teardown), then the loop runs over the given events.  Teardown
effects are appended exactly when the loop returned. -/
def processDelta (cfg : Config) (evs : List LoopEvent) :
    Option (Option Err) × ProcState × List Effect :=
  let s0 := initState cfg
  let openEffs : List Effect :=
    if cfg.hasCallbacks then [Effect.onDeltaStreamOpen cfg.defaultTypeURL] else []
  match (if cfg.hasCallbacks then cfg.onDeltaStreamOpenErr else none) with
  | some e => (some (some (.callbackError e)), s0, openEffs ++ teardown cfg s0)
  | none =>
    match runLoop cfg evs s0 with
    | (none, s, effs) => (none, s, openEffs ++ effs)
    | (some err, s, effs) => (some err, s, openEffs ++ effs ++ teardown cfg s)

/-- The type URL a request is handled under after policing. -/
def effectiveTypeUrl (cfg : Config) (req : DeltaDiscoveryRequest) : String :=
  if cfg.defaultTypeURL ≠ AnyType ∧ req.typeUrl = "" then cfg.defaultTypeURL else req.typeUrl

/-- The nonces of the responses handed to the transport, in order. -/
def sentNonces (effs : List Effect) : List String :=
  effs.filterMap fun e => match e with
    | .sentResponse r => some r.nonce
    | _ => none

/-- Whether a watch was created for the given type URL. -/
def createdWatchFor (t : String) (effs : List Effect) : Bool :=
  effs.any fun e => match e with
    | .createdWatch t0 _ => t0 == t
    | _ => false

/-- Number of watch creations in a trace. -/
def watchCreations (effs : List Effect) : Nat :=
  (effs.filter fun e => match e with
    | .createdWatch _ _ => true
    | _ => false).length

/-- Number of cancel invocations in a trace. -/
def cancelCount (effs : List Effect) : Nat :=
  (effs.filter fun e => match e with
    | .cancelInvoked _ => true
    | _ => false).length

/-- Number of stream-closed callback invocations in a trace. -/
def closedCount (effs : List Effect) : Nat :=
  (effs.filter fun e => match e with
    | .onDeltaStreamClosed => true
    | _ => false).length

/-- The node fields observed by the request callback, in order. -/
def observedNodes (effs : List Effect) : List (Option Node) :=
  effs.filterMap fun e => match e with
    | .onStreamDeltaRequest r => some r.node
    | _ => none

/-- Number of request-callback invocations in a trace. -/
def observedCount (effs : List Effect) : Nat := (observedNodes effs).length

/-- The decimal nonce strings produced by `k` consecutive sends starting
from counter value `m`. -/
def nonceRange (m k : Nat) : List String :=
  (List.range k).map fun j => toString (m + j + 1)

/-- The agreement invariant between the nonces map and the stream-state
store: every type with a recorded last-sent nonce has a stream-state
entry carrying that same nonce. -/
def noncesAgree (s : ProcState) : Prop :=
  ∀ t n, alookup s.deltaNonces t = some n →
    ∃ ss, alookup s.deltaStreamStates t = some ss ∧ ss.nonce = n



/-- Projection: the state carried by a step result. -/
def StepResult.state : StepResult → ProcState
  | .next s _ => s
  | .stop _ s _ => s

/-- Projection: the effects carried by a step result. -/
def StepResult.effects : StepResult → List Effect
  | .next _ e => e
  | .stop _ _ e => e

/-- Plain single-type configuration for concrete checks: no callbacks,
no logger, default type URL "T". -/
def cfgPlain : Config := ⟨false, false, "T", [], none, fun _ => none, fun _ => none⟩

/-- Configuration with callbacks installed whose stream-open callback
fails with "boom". -/
def cfgOpenFail : Config := ⟨true, false, "T", [], some "boom", fun _ => none, fun _ => none⟩

/-- Configuration with callbacks and a logger, all callbacks succeeding. -/
def cfgCb : Config := ⟨true, true, "T", [], none, fun _ => none, fun _ => none⟩

/-- Aggregated-mode configuration: the default type URL is AnyType. -/
def cfgAds : Config := ⟨true, false, AnyType, [], none, fun _ => none, fun _ => none⟩

/-- A basic request for type "T" with empty response nonce. -/
def reqT : DeltaDiscoveryRequest := ⟨none, "T", "", [], none⟩

/-- A NACK request: type "T", empty nonce, error detail set. -/
def reqNackT : DeltaDiscoveryRequest := ⟨none, "T", "", [], some "bad"⟩

/-- A request with an empty type URL. -/
def reqEmptyT : DeltaDiscoveryRequest := ⟨none, "", "", [], none⟩

/-- A first request carrying a node identity. -/
def reqNode : DeltaDiscoveryRequest := ⟨some ⟨"n1"⟩, "T", "", [], none⟩

/-- A well-formed cache response for type "T". -/
def respT : DeltaResponse := ⟨reqT, .ok ⟨"", "p"⟩, .ok "v1", .ok [("c1", "a")]⟩

/-- A cache response for "T" whose system-version getter fails. -/
def respTBadSV : DeltaResponse := ⟨reqT, .ok ⟨"", "p"⟩, .error "sv boom", .ok []⟩

/-- A stream state with an established entry for type "T". -/
def stateWithT : ProcState := ⟨0, emptyNode, 0, [("T", ⟨"old", "v0", [("a", "1")]⟩)], [], [], []⟩

/-- The processor state right after a first watch for "T" was created on
a fresh stream. -/
def stateAfterWatch : ProcState := ⟨0, emptyNode, 1, [], [], [("T", some 0)], []⟩

/-! ## Helper lemmas -/

theorem alookup_ainsert_self {α : Type} (l : List (String × α)) (k : String) (v : α) :
    alookup (ainsert l k v) k = some v := by
  induction l with
  | nil => simp [ainsert, alookup]
  | cons p t ih =>
    obtain ⟨k0, v0⟩ := p
    by_cases h : k0 = k
    · simp [ainsert, alookup, h]
    · simp [ainsert, alookup, h, ih]

theorem alookup_ainsert_ne {α : Type} (l : List (String × α)) (k k2 : String) (v : α)
    (h : k ≠ k2) : alookup (ainsert l k v) k2 = alookup l k2 := by
  induction l with
  | nil => simp [ainsert, alookup, h]
  | cons p t ih =>
    obtain ⟨k0, v0⟩ := p
    by_cases h0 : k0 = k
    · subst h0
      simp [ainsert, alookup, h]
    · simp [ainsert, alookup, h0, ih]

theorem sentNonces_append (a b : List Effect) :
    sentNonces (a ++ b) = sentNonces a ++ sentNonces b := by
  simp [sentNonces]

theorem observedNodes_append (a b : List Effect) :
    observedNodes (a ++ b) = observedNodes a ++ observedNodes b := by
  simp [observedNodes]

theorem watchCreations_append (a b : List Effect) :
    watchCreations (a ++ b) = watchCreations a + watchCreations b := by
  simp [watchCreations]

theorem cancelCount_append (a b : List Effect) :
    cancelCount (a ++ b) = cancelCount a + cancelCount b := by
  simp [cancelCount]

theorem closedCount_append (a b : List Effect) :
    closedCount (a ++ b) = closedCount a + closedCount b := by
  simp [closedCount]

theorem createdWatchFor_append (t : String) (a b : List Effect) :
    createdWatchFor t (a ++ b) = (createdWatchFor t a || createdWatchFor t b) := by
  simp [createdWatchFor]

theorem nonceRange_zero (m : Nat) : nonceRange m 0 = [] := by
  simp [nonceRange]

theorem nonceRange_one (m : Nat) : nonceRange m 1 = [toString (m + 1)] := by
  have h : List.range 1 = [0] := rfl
  simp [nonceRange, h]

theorem nonceRange_append (m k1 k2 : Nat) :
    nonceRange m k1 ++ nonceRange (m + k1) k2 = nonceRange m (k1 + k2) := by
  simp only [nonceRange, List.range_add, List.map_append, List.map_map]
  congr 1
  apply List.map_congr_left
  intro j _
  simp [Function.comp]
  congr 1
  omega

theorem nonceRange_length (m k : Nat) : (nonceRange m k).length = k := by
  simp [nonceRange]

theorem toDigitsCore_length_le (b fuel n : Nat) (ds : List Char) :
    ds.length ≤ (Nat.toDigitsCore b fuel n ds).length := by
  induction fuel generalizing n ds with
  | zero => simp [Nat.toDigitsCore]
  | succ f ih =>
    simp only [Nat.toDigitsCore]
    split
    · simp
    · exact le_trans (by simp) (ih _ _)

theorem toString_nat_ne_empty (n : Nat) : toString n ≠ "" := by
  show Nat.repr n ≠ ""
  unfold Nat.repr
  intro h
  have h2 : Nat.toDigits 10 n = [] := by
    have h3 := congrArg String.data h
    simpa [List.asString] using h3
  unfold Nat.toDigits at h2
  rw [Nat.toDigitsCore] at h2
  revert h2
  split
  · simp
  · intro h2
    have h4 := toDigitsCore_length_le 10 n (n / 10) [Nat.digitChar (n % 10)]
    rw [h2] at h4
    simp at h4

theorem update_err_zero (r : DeltaResponse) (n : String) (e : Err)
    (h : (update r n).2 = some e) : (update r n).1 = zeroStreamState := by
  rcases hsv : r.systemVersion with e1 | sv
  · simp [update, hsv]
  · rcases hvm : r.versionMap with e2 | vm
    · simp [update, hsv, hvm]
    · simp [update, hsv, hvm] at h

theorem process_ok_inv (cfg : Config) (s : ProcState) (respOpt : Option DeltaResponse)
    (s2 : ProcState) (effs : List Effect)
    (h : process cfg s respOpt = (none, s2, effs)) :
    ∃ r out0 sv vm,
      respOpt = some r ∧ r.ddr = .ok out0 ∧ r.systemVersion = .ok sv ∧ r.versionMap = .ok vm ∧
      cfg.sendErr { out0 with nonce := toString (s.streamNonce + 1) } = none ∧
      s2 = { s with
              streamNonce := s.streamNonce + 1
              deltaNonces := ainsert s.deltaNonces r.req.typeUrl (toString (s.streamNonce + 1))
              deltaCancellations := ainsert s.deltaCancellations r.req.typeUrl none
              deltaStreamStates := ainsert s.deltaStreamStates r.req.typeUrl
                ⟨toString (s.streamNonce + 1), sv, vm⟩ } ∧
      effs = (if cfg.hasCallbacks then
                [Effect.onStreamDeltaResponse r.req { out0 with nonce := toString (s.streamNonce + 1) }]
              else []) ++
        [Effect.sentResponse { out0 with nonce := toString (s.streamNonce + 1) }] := by
  cases respOpt with
  | none => simp [process, send] at h
  | some r =>
    rcases hd : r.ddr with e | out0
    · simp [process, send, hd] at h
    · rcases hs : cfg.sendErr { out0 with nonce := toString (s.streamNonce + 1) } with _ | e
      · rcases hsv : r.systemVersion with e1 | sv
        · simp [process, send, hd, hs, update, hsv] at h
        · rcases hvm : r.versionMap with e2 | vm
          · simp [process, send, hd, hs, update, hsv, hvm] at h
          · simp only [process, send, hd, hs, update, hsv, hvm] at h
            injection h with ha hb
            injection hb with hb1 hb2
            exact ⟨r, out0, sv, vm, rfl, hd, hsv, hvm, hs, hb1.symm, hb2.symm⟩
      · simp [process, send, hd, hs] at h

theorem process_update_err (cfg : Config) (s : ProcState) (r : DeltaResponse)
    (out0 : DeltaDiscoveryResponse) (e : Err)
    (hd : r.ddr = .ok out0)
    (hs : cfg.sendErr { out0 with nonce := toString (s.streamNonce + 1) } = none)
    (hu : (update r (toString (s.streamNonce + 1))).2 = some e) :
    process cfg s (some r) =
      (some e,
       { s with
          streamNonce := s.streamNonce + 1
          deltaNonces := ainsert s.deltaNonces r.req.typeUrl (toString (s.streamNonce + 1))
          deltaCancellations := ainsert s.deltaCancellations r.req.typeUrl none
          deltaStreamStates := ainsert s.deltaStreamStates r.req.typeUrl zeroStreamState },
       (if cfg.hasCallbacks then
          [Effect.onStreamDeltaResponse r.req { out0 with nonce := toString (s.streamNonce + 1) }]
        else []) ++
       [Effect.sentResponse { out0 with nonce := toString (s.streamNonce + 1) }]) := by
  have hz := update_err_zero r (toString (s.streamNonce + 1)) e hu
  simp only [process, send, hd, hs]
  rw [show (update r (toString (s.streamNonce + 1))) = (zeroStreamState, some e) from
    Prod.ext hz hu]

theorem process_ok_effects (cfg : Config) (s : ProcState) (respOpt : Option DeltaResponse)
    (s2 : ProcState) (effs : List Effect)
    (h : process cfg s respOpt = (none, s2, effs)) :
    watchCreations effs = 0 ∧ cancelCount effs = 0 ∧ observedNodes effs = [] ∧
    closedCount effs = 0 ∧ sentNonces effs = [toString (s.streamNonce + 1)] ∧
    s2.streamNonce = s.streamNonce + 1 ∧ s2.deltaResponses = s.deltaResponses ∧
    s2.node = s.node ∧ s2.nextWatchId = s.nextWatchId := by
  obtain ⟨r, out0, sv, vm, hro, hd, hsv, hvm, hs, hst, hef⟩ :=
    process_ok_inv cfg s respOpt s2 effs h
  subst hst hef
  cases hcb : cfg.hasCallbacks <;>
    simp [hcb, watchCreations, cancelCount, observedNodes, closedCount, sentNonces]

theorem process_ok_agree (cfg : Config) (s : ProcState) (respOpt : Option DeltaResponse)
    (s2 : ProcState) (effs : List Effect)
    (h : process cfg s respOpt = (none, s2, effs)) (hag : noncesAgree s) : noncesAgree s2 := by
  obtain ⟨r, out0, sv, vm, hro, hd, hsv, hvm, hs, hst, hef⟩ :=
    process_ok_inv cfg s respOpt s2 effs h
  subst hst
  intro t n hl
  by_cases ht : r.req.typeUrl = t
  · subst ht
    rw [alookup_ainsert_self] at hl
    injection hl with hl2
    exact ⟨⟨toString (s.streamNonce + 1), sv, vm⟩, alookup_ainsert_self _ _ _, hl2⟩
  · rw [show alookup (ainsert s.deltaNonces r.req.typeUrl (toString (s.streamNonce + 1))) t =
        alookup s.deltaNonces t from alookup_ainsert_ne _ _ _ _ ht] at hl
    obtain ⟨ss, h1, h2⟩ := hag t n hl
    refine ⟨ss, ?_, h2⟩
    show alookup (ainsert s.deltaStreamStates r.req.typeUrl _) t = _
    rw [alookup_ainsert_ne _ _ _ _ ht]
    exact h1

theorem process_sends (cfg : Config) (s : ProcState) (respOpt : Option DeltaResponse) :
    ∃ k, sentNonces (process cfg s respOpt).2.2 = nonceRange s.streamNonce k ∧
      (process cfg s respOpt).2.1.streamNonce = s.streamNonce + k := by
  rcases respOpt with _ | r
  · exact ⟨0, by simp [process, send, sentNonces, nonceRange_zero], by simp [process, send]⟩
  · rcases hd : r.ddr with e | out0
    · exact ⟨0, by simp [process, send, hd, sentNonces, nonceRange_zero],
        by simp [process, send, hd]⟩
    · rcases hs : cfg.sendErr { out0 with nonce := toString (s.streamNonce + 1) } with _ | e
      · rcases hu : update r (toString (s.streamNonce + 1)) with ⟨st, _ | e2⟩
        · refine ⟨1, ?_, ?_⟩ <;>
            cases hcb : cfg.hasCallbacks <;>
              simp [process, send, hd, hs, hu, hcb, sentNonces, nonceRange_one]
        · refine ⟨1, ?_, ?_⟩ <;>
            cases hcb : cfg.hasCallbacks <;>
              simp [process, send, hd, hs, hu, hcb, sentNonces, nonceRange_one]
      · refine ⟨1, ?_, ?_⟩ <;>
          cases hcb : cfg.hasCallbacks <;>
            simp [process, send, hd, hs, hcb, sentNonces, nonceRange_one]

theorem drainAux_sends (cfg : Config) (q : List (Option DeltaResponse)) (s : ProcState) :
    ∃ k, sentNonces (drainAux cfg q s).2.2 = nonceRange s.streamNonce k ∧
      (drainAux cfg q s).2.1.streamNonce = s.streamNonce + k := by
  induction q generalizing s with
  | nil => exact ⟨0, by simp [drainAux, sentNonces, nonceRange_zero], by simp [drainAux]⟩
  | cons r rest ih =>
    obtain ⟨k1, hk1, hk1s⟩ := process_sends cfg { s with deltaResponses := rest } r
    rcases hp : process cfg { s with deltaResponses := rest } r with ⟨e1, s1, effs⟩
    rw [hp] at hk1 hk1s
    simp only at hk1 hk1s
    cases e1 with
    | some e =>
      refine ⟨k1, ?_, ?_⟩ <;> simp [drainAux, hp, hk1, hk1s]
    | none =>
      obtain ⟨k2, hk2, hk2s⟩ := ih s1
      rcases hq : drainAux cfg rest s1 with ⟨e2, s2b, effs2⟩
      rw [hq] at hk2 hk2s
      simp only at hk2 hk2s
      refine ⟨k1 + k2, ?_, ?_⟩
      · have : sentNonces (effs ++ effs2) = nonceRange s.streamNonce (k1 + k2) := by
          rw [sentNonces_append, hk1, hk2, hk1s]
          exact nonceRange_append s.streamNonce k1 k2
        simp [drainAux, hp, hq, this]
      · simp [drainAux, hp, hq, hk2s, hk1s]
        omega

theorem drainAux_ok (cfg : Config) (q : List (Option DeltaResponse)) (s s2 : ProcState)
    (effs : List Effect) (h : drainAux cfg q s = (none, s2, effs)) :
    watchCreations effs = 0 ∧ cancelCount effs = 0 ∧ observedNodes effs = [] ∧
    closedCount effs = 0 ∧ (sentNonces effs).length = q.length ∧
    s2.node = s.node ∧ s2.nextWatchId = s.nextWatchId ∧
    (s.deltaResponses = q → s2.deltaResponses = []) ∧
    (noncesAgree s → noncesAgree s2) := by
  induction q generalizing s s2 effs with
  | nil =>
    simp only [drainAux, Prod.mk.injEq, true_and] at h
    obtain ⟨hs2, heffs⟩ := h
    subst hs2 heffs
    simp [watchCreations, cancelCount, observedNodes, closedCount, sentNonces]
  | cons r rest ih =>
    rcases hp : process cfg { s with deltaResponses := rest } r with ⟨e1, s1, effs1⟩
    rcases hq : drainAux cfg rest s1 with ⟨e2, s2b, effs2⟩
    cases e1 with
    | some e => simp [drainAux, hp] at h
    | none =>
      simp only [drainAux, hp, hq, Prod.mk.injEq] at h
      obtain ⟨he2, hs2, heffs⟩ := h
      subst he2 hs2 heffs
      obtain ⟨w1, c1, o1, cl1, sn1, ns1, dr1, nd1, nw1⟩ :=
        process_ok_effects cfg { s with deltaResponses := rest } r s1 effs1 hp
      obtain ⟨w2, c2, o2, cl2, sn2, nd2, nw2, dr2, ag2⟩ := ih s1 s2b effs2 hq
      refine ⟨?_, ?_, ?_, ?_, ?_, ?_, ?_, ?_, ?_⟩
      · rw [watchCreations_append, w1, w2]
      · rw [cancelCount_append, c1, c2]
      · simp [observedNodes_append, o1, o2]
      · rw [closedCount_append, cl1, cl2]
      · rw [sentNonces_append, List.length_append, sn1, sn2]
        simp [Nat.add_comm]
      · rw [nd2, nd1]
      · rw [nw2, nw1]
      · intro _
        exact dr2 dr1
      · intro hag
        exact ag2 (process_ok_agree cfg _ r s1 effs1 hp hag)

theorem processAll_ok (cfg : Config) (s s2 : ProcState) (effs : List Effect)
    (h : processAll cfg s = (none, s2, effs)) :
    watchCreations effs = 0 ∧ cancelCount effs = 0 ∧ observedNodes effs = [] ∧
    closedCount effs = 0 ∧ (sentNonces effs).length = s.deltaResponses.length ∧
    s2.node = s.node ∧ s2.nextWatchId = s.nextWatchId ∧ s2.deltaResponses = [] ∧
    (noncesAgree s → noncesAgree s2) := by
  have h2 := drainAux_ok cfg s.deltaResponses s s2 effs h
  exact ⟨h2.1, h2.2.1, h2.2.2.1, h2.2.2.2.1, h2.2.2.2.2.1, h2.2.2.2.2.2.1,
    h2.2.2.2.2.2.2.1, h2.2.2.2.2.2.2.2.1 rfl, h2.2.2.2.2.2.2.2.2⟩

theorem rehydrate_typeUrl (s : ProcState) (req : DeltaDiscoveryRequest) :
    (rehydrateNode s req).2.typeUrl = req.typeUrl := by
  cases h : req.node <;> simp [rehydrateNode, h]

theorem rehydrate_responseNonce (s : ProcState) (req : DeltaDiscoveryRequest) :
    (rehydrateNode s req).2.responseNonce = req.responseNonce := by
  cases h : req.node <;> simp [rehydrateNode, h]

theorem rehydrate_fst (s : ProcState) (req : DeltaDiscoveryRequest) :
    (rehydrateNode s req).1.deltaNonces = s.deltaNonces ∧
    (rehydrateNode s req).1.deltaCancellations = s.deltaCancellations ∧
    (rehydrateNode s req).1.deltaStreamStates = s.deltaStreamStates ∧
    (rehydrateNode s req).1.deltaResponses = s.deltaResponses ∧
    (rehydrateNode s req).1.streamNonce = s.streamNonce ∧
    (rehydrateNode s req).1.nextWatchId = s.nextWatchId := by
  cases h : req.node <;> simp [rehydrateNode, h]

theorem rehydrate_node_some (s : ProcState) (req : DeltaDiscoveryRequest) (n : Node)
    (h : req.node = some n) :
    (rehydrateNode s req).1.node = n ∧ (rehydrateNode s req).2.node = some n := by
  simp [rehydrateNode, h]

theorem rehydrate_node_none (s : ProcState) (req : DeltaDiscoveryRequest)
    (h : req.node = none) :
    (rehydrateNode s req).1 = s ∧ (rehydrateNode s req).2.node = some s.node := by
  simp [rehydrateNode, h]

theorem police_ok (cfg : Config) (req req2 : DeltaDiscoveryRequest)
    (h : policeTypeUrl cfg req = .ok req2) :
    req2 = { req with typeUrl := effectiveTypeUrl cfg req } := by
  unfold policeTypeUrl at h
  unfold effectiveTypeUrl
  by_cases hd : cfg.defaultTypeURL = AnyType
  · by_cases ht : req.typeUrl = ""
    · simp [hd, ht] at h
    · simp only [hd, if_true, ht, if_neg, if_false] at h
      injection h with h2
      simp [hd, ht, ← h2]
  · by_cases ht : req.typeUrl = ""
    · simp only [hd, if_false, ht, if_true] at h
      injection h with h2
      simp [hd, ht, ← h2]
    · simp only [hd, if_false, ht] at h
      injection h with h2
      simp [hd, ht, ← h2]

theorem police_ads (cfg : Config) (req : DeltaDiscoveryRequest)
    (h1 : cfg.defaultTypeURL = AnyType) (h2 : req.typeUrl = "") :
    policeTypeUrl cfg req = .error (.invalidArgument "type URL is required for ADS") := by
  simp [policeTypeUrl, h1, h2]

theorem debug_effects_silent (g : String → String) (msgs : List String) :
    watchCreations (msgs.map fun m => Effect.loggedDebug (g m)) = 0 ∧
    cancelCount (msgs.map fun m => Effect.loggedDebug (g m)) = 0 ∧
    observedNodes (msgs.map fun m => Effect.loggedDebug (g m)) = [] ∧
    closedCount (msgs.map fun m => Effect.loggedDebug (g m)) = 0 ∧
    sentNonces (msgs.map fun m => Effect.loggedDebug (g m)) = [] ∧
    (∀ t, createdWatchFor t (msgs.map fun m => Effect.loggedDebug (g m)) = false) := by
  induction msgs with
  | nil => simp [watchCreations, cancelCount, observedNodes, closedCount, sentNonces,
      createdWatchFor]
  | cons a l ih =>
    obtain ⟨i1, i2, i3, i4, i5, i6⟩ := ih
    refine ⟨?_, ?_, ?_, ?_, ?_, ?_⟩
    · simpa [watchCreations] using i1
    · simpa [cancelCount] using i2
    · simpa [observedNodes] using i3
    · simpa [closedCount] using i4
    · simpa [sentNonces] using i5
    · intro t
      simpa [createdWatchFor] using i6 t

theorem unsubscribeLog_silent (cfg : Config) (u : List String) :
    watchCreations (unsubscribeLog cfg u) = 0 ∧
    cancelCount (unsubscribeLog cfg u) = 0 ∧
    observedNodes (unsubscribeLog cfg u) = [] ∧
    closedCount (unsubscribeLog cfg u) = 0 ∧
    sentNonces (unsubscribeLog cfg u) = [] ∧
    (∀ t, createdWatchFor t (unsubscribeLog cfg u) = false) := by
  unfold unsubscribeLog
  cases hl : cfg.hasLog
  · simp [watchCreations, cancelCount, observedNodes, closedCount, sentNonces, createdWatchFor]
  · simp only [if_true]
    exact debug_effects_silent _ u

theorem errorDetailLog_silent (cfg : Config) (req : DeltaDiscoveryRequest) :
    watchCreations (errorDetailLog cfg req) = 0 ∧
    cancelCount (errorDetailLog cfg req) = 0 ∧
    observedNodes (errorDetailLog cfg req) = [] ∧
    closedCount (errorDetailLog cfg req) = 0 ∧
    sentNonces (errorDetailLog cfg req) = [] ∧
    (∀ t, createdWatchFor t (errorDetailLog cfg req) = false) := by
  unfold errorDetailLog
  rcases hd : req.errorDetail with _ | d <;> cases hl : cfg.hasLog <;>
    simp [watchCreations, cancelCount, observedNodes, closedCount, sentNonces, createdWatchFor]

theorem applyUnsubscribe_fst (cfg : Config) (s : ProcState) (req : DeltaDiscoveryRequest) :
    (applyUnsubscribe cfg s req).1.deltaNonces = s.deltaNonces ∧
    (applyUnsubscribe cfg s req).1.deltaCancellations = s.deltaCancellations ∧
    (applyUnsubscribe cfg s req).1.deltaResponses = s.deltaResponses ∧
    (applyUnsubscribe cfg s req).1.node = s.node ∧
    (applyUnsubscribe cfg s req).1.streamNonce = s.streamNonce ∧
    (applyUnsubscribe cfg s req).1.nextWatchId = s.nextWatchId := by
  rcases hu : req.resourceNamesUnsubscribe with _ | ⟨a, u⟩
  · simp [applyUnsubscribe, hu]
  · rcases hl : alookup s.deltaStreamStates req.typeUrl with _ | ss <;>
      simp [applyUnsubscribe, hu, hl]

theorem applyUnsubscribe_effects (cfg : Config) (s : ProcState) (req : DeltaDiscoveryRequest) :
    (applyUnsubscribe cfg s req).2 = [] ∨
    (applyUnsubscribe cfg s req).2 = unsubscribeLog cfg req.resourceNamesUnsubscribe := by
  rcases hu : req.resourceNamesUnsubscribe with _ | ⟨a, u⟩
  · left
    simp [applyUnsubscribe, hu]
  · right
    rcases hl : alookup s.deltaStreamStates req.typeUrl with _ | ss <;>
      simp [applyUnsubscribe, hu, hl]

theorem reconcile_false (cfg : Config) (s : ProcState) (t n : String)
    (h : nonceCond s t n = false) : reconcile cfg s t n = (none, s, []) := by
  simp [reconcile, h]

theorem reconcile_no_handle (cfg : Config) (s : ProcState) (t n : String)
    (hc : nonceCond s t n = true)
    (hl : alookup s.deltaCancellations t = none ∨ alookup s.deltaCancellations t = some none) :
    reconcile cfg s t n =
      (none,
       { s with
          nextWatchId := s.nextWatchId + 1
          deltaCancellations := ainsert s.deltaCancellations t (some s.nextWatchId) },
       [Effect.createdWatch t s.nextWatchId]) := by
  rcases hl with hl | hl <;> simp [reconcile, hc, hl]

theorem reconcile_handle_ok (cfg : Config) (s : ProcState) (t n : String) (cid : Nat)
    (s1 : ProcState) (de : List Effect)
    (hc : nonceCond s t n = true)
    (hl : alookup s.deltaCancellations t = some (some cid))
    (hp : processAll cfg s = (none, s1, de)) :
    reconcile cfg s t n =
      (none,
       { s1 with
          nextWatchId := s1.nextWatchId + 1
          deltaCancellations := ainsert s1.deltaCancellations t (some s1.nextWatchId) },
       Effect.cancelInvoked cid :: de ++ [Effect.createdWatch t s1.nextWatchId]) := by
  simp [reconcile, hc, hl, hp]

theorem reconcile_handle_err (cfg : Config) (s : ProcState) (t n : String) (cid : Nat)
    (e : Err) (s1 : ProcState) (de : List Effect)
    (hc : nonceCond s t n = true)
    (hl : alookup s.deltaCancellations t = some (some cid))
    (hp : processAll cfg s = (some e, s1, de)) :
    reconcile cfg s t n = (some e, s1, Effect.cancelInvoked cid :: de) := by
  simp [reconcile, hc, hl, hp]

theorem agree_of_eq (s s2 : ProcState)
    (h1 : s2.deltaNonces = s.deltaNonces)
    (h2 : s2.deltaStreamStates = s.deltaStreamStates)
    (hag : noncesAgree s) : noncesAgree s2 := by
  intro t n hn
  rw [h1] at hn
  obtain ⟨ss, ha, hb⟩ := hag t n hn
  refine ⟨ss, ?_, hb⟩
  rw [h2]
  exact ha

theorem applyUnsubscribe_agree (cfg : Config) (s : ProcState) (req : DeltaDiscoveryRequest)
    (hag : noncesAgree s) : noncesAgree (applyUnsubscribe cfg s req).1 := by
  rcases hu : req.resourceNamesUnsubscribe with _ | ⟨a, u⟩
  · exact agree_of_eq s _ (by simp [applyUnsubscribe, hu]) (by simp [applyUnsubscribe, hu]) hag
  · rcases hl : alookup s.deltaStreamStates req.typeUrl with _ | ss
    · exact agree_of_eq s _ (by simp [applyUnsubscribe, hu, hl])
        (by simp [applyUnsubscribe, hu, hl]) hag
    · intro t n hn
      simp only [applyUnsubscribe, hu, hl] at hn ⊢
      obtain ⟨ss2, h1, h2⟩ := hag t n hn
      by_cases ht : req.typeUrl = t
      · subst ht
        rw [alookup_ainsert_self]
        rw [hl] at h1
        injection h1 with h1e
        subst h1e
        exact ⟨_, rfl, h2⟩
      · rw [alookup_ainsert_ne _ _ _ _ ht]
        exact ⟨ss2, h1, h2⟩

theorem processAll_nil (cfg : Config) (s : ProcState) (h : s.deltaResponses = []) :
    processAll cfg s = (none, s, []) := by
  unfold processAll
  rw [h]
  rfl

theorem reconcile_agree (cfg : Config) (s : ProcState) (t n : String) (s3 : ProcState)
    (recEffs : List Effect) (h : reconcile cfg s t n = (none, s3, recEffs))
    (hag : noncesAgree s) : noncesAgree s3 := by
  cases hcv : nonceCond s t n with
  | false =>
    rw [reconcile_false cfg s t n hcv] at h
    injection h with h1 h2
    injection h2 with h2a h2b
    subst h2a
    exact hag
  | true =>
    rcases hl : alookup s.deltaCancellations t with _ | oc
    · rw [reconcile_no_handle cfg s t n hcv (Or.inl hl)] at h
      injection h with h1 h2
      injection h2 with h2a h2b
      subst h2a
      exact agree_of_eq s _ rfl rfl hag
    · rcases oc with _ | cid
      · rw [reconcile_no_handle cfg s t n hcv (Or.inr hl)] at h
        injection h with h1 h2
        injection h2 with h2a h2b
        subst h2a
        exact agree_of_eq s _ rfl rfl hag
      · rcases hp : processAll cfg s with ⟨e1, s1, de⟩
        cases e1 with
        | some e =>
          rw [reconcile_handle_err cfg s t n cid e s1 de hcv hl hp] at h
          simp at h
        | none =>
          rw [reconcile_handle_ok cfg s t n cid s1 de hcv hl hp] at h
          injection h with h1 h2
          injection h2 with h2a h2b
          subst h2a
          have hag1 := (processAll_ok cfg s s1 de hp).2.2.2.2.2.2.2.2 hag
          exact agree_of_eq s1 _ rfl rfl hag1

theorem handleRequest_ok_inv (cfg : Config) (s : ProcState) (req0 : DeltaDiscoveryRequest)
    (s4 : ProcState) (effs : List Effect)
    (h : handleRequest cfg s req0 = (none, s4, effs)) :
    ∃ req2 recEffs,
      policeTypeUrl cfg (rehydrateNode s req0).2 = .ok req2 ∧
      (if cfg.hasCallbacks then cfg.onStreamDeltaRequestErr req2 else none) = none ∧
      reconcile cfg (applyUnsubscribe cfg (rehydrateNode s req0).1 req2).1 req2.typeUrl
        (rehydrateNode s req0).2.responseNonce = (none, s4, recEffs) ∧
      effs = errorDetailLog cfg req0 ++ (applyUnsubscribe cfg (rehydrateNode s req0).1 req2).2
        ++ (if cfg.hasCallbacks then [Effect.onStreamDeltaRequest req2] else []) ++ recEffs := by
  rcases hpol : policeTypeUrl cfg (rehydrateNode s req0).2 with e | req2
  · simp [handleRequest, hpol] at h
  · rcases hcb : (if cfg.hasCallbacks then cfg.onStreamDeltaRequestErr req2 else none) with _ | e
    · rcases hrec : reconcile cfg (applyUnsubscribe cfg (rehydrateNode s req0).1 req2).1
        req2.typeUrl (rehydrateNode s req0).2.responseNonce with ⟨err, s3, recEffs⟩
      simp only [handleRequest, hpol, hcb, hrec, Prod.mk.injEq] at h
      obtain ⟨he, hs, hef⟩ := h
      subst he hs
      exact ⟨req2, recEffs, rfl, hcb, hrec, hef.symm⟩
    · simp [handleRequest, hpol, hcb] at h

theorem handleRequest_agree (cfg : Config) (s : ProcState) (req0 : DeltaDiscoveryRequest)
    (s4 : ProcState) (effs : List Effect)
    (h : handleRequest cfg s req0 = (none, s4, effs)) (hag : noncesAgree s) : noncesAgree s4 := by
  obtain ⟨req2, recEffs, hpol, hcb, hrec, heffs⟩ := handleRequest_ok_inv cfg s req0 s4 effs h
  have hag1 : noncesAgree (rehydrateNode s req0).1 := by
    have hf := rehydrate_fst s req0
    exact agree_of_eq s _ hf.1 hf.2.2.1 hag
  have hag2 := applyUnsubscribe_agree cfg (rehydrateNode s req0).1 req2 hag1
  exact reconcile_agree cfg _ req2.typeUrl (rehydrateNode s req0).2.responseNonce s4 recEffs
    hrec hag2

theorem reconcile_main (cfg : Config) (s : ProcState) (t n : String) (s3 : ProcState)
    (recEffs : List Effect) (h : reconcile cfg s t n = (none, s3, recEffs)) :
    createdWatchFor t recEffs = nonceCond s t n ∧
    watchCreations recEffs = (if nonceCond s t n then 1 else 0) ∧
    observedNodes recEffs = [] ∧
    (nonceCond s t n = false → s3 = s ∧ recEffs = []) ∧
    (nonceCond s t n = true → ∃ w, alookup s3.deltaCancellations t = some (some w)) ∧
    (s.deltaResponses = [] → s3.deltaResponses = [] ∧ s3.deltaNonces = s.deltaNonces) ∧
    (nonceCond s t n = true → ∀ cid, alookup s.deltaCancellations t = some (some cid) →
      cancelCount recEffs = 1) ∧
    s3.node = s.node := by
  cases hcv : nonceCond s t n with
  | false =>
    rw [reconcile_false cfg s t n hcv] at h
    injection h with hx hy
    injection hy with hy1 hy2
    subst hy1 hy2
    refine ⟨?_, ?_, ?_, ?_, ?_, ?_, ?_, ?_⟩ <;>
      simp [createdWatchFor, watchCreations, observedNodes, cancelCount]
  | true =>
    rcases hl : alookup s.deltaCancellations t with _ | oc
    · rw [reconcile_no_handle cfg s t n hcv (Or.inl hl)] at h
      injection h with hx hy
      injection hy with hy1 hy2
      subst hy1 hy2
      refine ⟨?_, ?_, ?_, ?_, ?_, ?_, ?_, ?_⟩
      · simp [createdWatchFor]
      · simp [watchCreations]
      · simp [observedNodes]
      · intro hf
        simp at hf
      · intro _
        exact ⟨s.nextWatchId, alookup_ainsert_self _ _ _⟩
      · intro hq
        exact ⟨hq, rfl⟩
      · intro _ cid hcid
        simp at hcid
      · rfl
    · rcases oc with _ | cid
      · rw [reconcile_no_handle cfg s t n hcv (Or.inr hl)] at h
        injection h with hx hy
        injection hy with hy1 hy2
        subst hy1 hy2
        refine ⟨?_, ?_, ?_, ?_, ?_, ?_, ?_, ?_⟩
        · simp [createdWatchFor]
        · simp [watchCreations]
        · simp [observedNodes]
        · intro hf
          simp at hf
        · intro _
          exact ⟨s.nextWatchId, alookup_ainsert_self _ _ _⟩
        · intro hq
          exact ⟨hq, rfl⟩
        · intro _ cid2 hcid
          simp at hcid
        · rfl
      · rcases hp : processAll cfg s with ⟨ep, s1, de⟩
        cases ep with
        | some e =>
          rw [reconcile_handle_err cfg s t n cid e s1 de hcv hl hp] at h
          simp at h
        | none =>
          rw [reconcile_handle_ok cfg s t n cid s1 de hcv hl hp] at h
          injection h with hx hy
          injection hy with hy1 hy2
          subst hy1 hy2
          obtain ⟨pw, pc, po, pcl, ps, pn, pnw, pdr, pag⟩ := processAll_ok cfg s s1 de hp
          refine ⟨?_, ?_, ?_, ?_, ?_, ?_, ?_, ?_⟩
          · show createdWatchFor t
              ([Effect.cancelInvoked cid] ++ (de ++ [Effect.createdWatch t s1.nextWatchId]))
              = true
            rw [createdWatchFor_append, createdWatchFor_append]
            simp [createdWatchFor]
          · show watchCreations
              ([Effect.cancelInvoked cid] ++ (de ++ [Effect.createdWatch t s1.nextWatchId])) = 1
            rw [watchCreations_append, watchCreations_append, pw]
            rfl
          · show observedNodes
              ([Effect.cancelInvoked cid] ++ (de ++ [Effect.createdWatch t s1.nextWatchId])) = []
            rw [observedNodes_append, observedNodes_append, po]
            rfl
          · intro hf
            simp at hf
          · intro _
            exact ⟨s1.nextWatchId, alookup_ainsert_self _ _ _⟩
          · intro hq
            have hpn := processAll_nil cfg s hq
            rw [hp] at hpn
            injection hpn with hz1 hz2
            injection hz2 with hz2a hz2b
            subst hz2a
            exact ⟨pdr, rfl⟩
          · intro _ cid2 _
            show cancelCount
              ([Effect.cancelInvoked cid] ++ (de ++ [Effect.createdWatch t s1.nextWatchId])) = 1
            rw [cancelCount_append, cancelCount_append, pc]
            rfl
          · exact pn

theorem handleRequest_main (cfg : Config) (s : ProcState) (req0 : DeltaDiscoveryRequest)
    (s4 : ProcState) (effs : List Effect)
    (h : handleRequest cfg s req0 = (none, s4, effs)) :
    createdWatchFor (effectiveTypeUrl cfg req0) effs
        = nonceCond s (effectiveTypeUrl cfg req0) req0.responseNonce ∧
    watchCreations effs =
        (if nonceCond s (effectiveTypeUrl cfg req0) req0.responseNonce then 1 else 0) ∧
    (nonceCond s (effectiveTypeUrl cfg req0) req0.responseNonce = false →
        s4.deltaCancellations = s.deltaCancellations) ∧
    (nonceCond s (effectiveTypeUrl cfg req0) req0.responseNonce = true →
        ∃ w, alookup s4.deltaCancellations (effectiveTypeUrl cfg req0) = some (some w)) ∧
    (s.deltaResponses = [] → s4.deltaResponses = [] ∧ s4.deltaNonces = s.deltaNonces) ∧
    (nonceCond s (effectiveTypeUrl cfg req0) req0.responseNonce = true →
        ∀ cid, alookup s.deltaCancellations (effectiveTypeUrl cfg req0) = some (some cid) →
        cancelCount effs = 1) ∧
    observedNodes effs = (if cfg.hasCallbacks then [(rehydrateNode s req0).2.node] else []) ∧
    s4.node = (rehydrateNode s req0).1.node := by
  obtain ⟨req2, recEffs, hpol, hcb, hrec, heffs⟩ := handleRequest_ok_inv cfg s req0 s4 effs h
  have hreq2 := police_ok cfg _ req2 hpol
  have ht : req2.typeUrl = effectiveTypeUrl cfg req0 := by
    rw [hreq2]
    simp [effectiveTypeUrl, rehydrate_typeUrl]
  have hn2 : req2.node = (rehydrateNode s req0).2.node := by rw [hreq2]
  have hrn := rehydrate_responseNonce s req0
  obtain ⟨ru1, ru2, ru3, ru4, ru5, ru6⟩ := rehydrate_fst s req0
  obtain ⟨au1, au2, au3, au4, au5, au6⟩ :=
    applyUnsubscribe_fst cfg (rehydrateNode s req0).1 req2
  have hN : (applyUnsubscribe cfg (rehydrateNode s req0).1 req2).1.deltaNonces
      = s.deltaNonces := by rw [au1, ru1]
  have hC : (applyUnsubscribe cfg (rehydrateNode s req0).1 req2).1.deltaCancellations
      = s.deltaCancellations := by rw [au2, ru2]
  have hR : (applyUnsubscribe cfg (rehydrateNode s req0).1 req2).1.deltaResponses
      = s.deltaResponses := by rw [au3, ru4]
  have hcond : nonceCond (applyUnsubscribe cfg (rehydrateNode s req0).1 req2).1 req2.typeUrl
      (rehydrateNode s req0).2.responseNonce
      = nonceCond s (effectiveTypeUrl cfg req0) req0.responseNonce := by
    unfold nonceCond
    rw [hN, ht, hrn]
  obtain ⟨rm1, rm2, rm3, rm4, rm5, rm6, rm7, rm8⟩ :=
    reconcile_main cfg _ req2.typeUrl _ s4 recEffs hrec
  obtain ⟨e1w, e1c, e1o, e1cl, e1s, e1f⟩ := errorDetailLog_silent cfg req0
  have hun := applyUnsubscribe_effects cfg (rehydrateNode s req0).1 req2
  have huW : watchCreations (applyUnsubscribe cfg (rehydrateNode s req0).1 req2).2 = 0 := by
    rcases hun with he | he <;> rw [he]
    · rfl
    · exact (unsubscribeLog_silent cfg _).1
  have huC : cancelCount (applyUnsubscribe cfg (rehydrateNode s req0).1 req2).2 = 0 := by
    rcases hun with he | he <;> rw [he]
    · rfl
    · exact (unsubscribeLog_silent cfg _).2.1
  have huO : observedNodes (applyUnsubscribe cfg (rehydrateNode s req0).1 req2).2 = [] := by
    rcases hun with he | he <;> rw [he]
    · rfl
    · exact (unsubscribeLog_silent cfg _).2.2.1
  have huF : ∀ t2, createdWatchFor t2 (applyUnsubscribe cfg (rehydrateNode s req0).1 req2).2
      = false := by
    intro t2
    rcases hun with he | he <;> rw [he]
    · rfl
    · exact (unsubscribeLog_silent cfg _).2.2.2.2.2 t2
  have hcbW : watchCreations (if cfg.hasCallbacks then [Effect.onStreamDeltaRequest req2]
      else []) = 0 := by
    cases cfg.hasCallbacks <;> simp [watchCreations]
  have hcbC : cancelCount (if cfg.hasCallbacks then [Effect.onStreamDeltaRequest req2]
      else []) = 0 := by
    cases cfg.hasCallbacks <;> simp [cancelCount]
  have hcbO : observedNodes (if cfg.hasCallbacks then [Effect.onStreamDeltaRequest req2]
      else []) = (if cfg.hasCallbacks then [req2.node] else []) := by
    cases cfg.hasCallbacks <;> simp [observedNodes]
  have hcbF : ∀ t2, createdWatchFor t2 (if cfg.hasCallbacks
      then [Effect.onStreamDeltaRequest req2] else []) = false := by
    intro t2
    cases cfg.hasCallbacks <;> simp [createdWatchFor]
  rw [ht] at hcond
  rw [ht] at rm1 rm2 rm4 rm5 rm7
  rw [hcond] at rm1 rm2 rm4 rm5 rm7
  refine ⟨?_, ?_, ?_, ?_, ?_, ?_, ?_, ?_⟩
  · rw [heffs, createdWatchFor_append, createdWatchFor_append, createdWatchFor_append,
      e1f _, huF _, hcbF _, rm1]
    simp
  · rw [heffs, watchCreations_append, watchCreations_append, watchCreations_append,
      e1w, huW, hcbW, rm2]
    simp
  · intro hf
    obtain ⟨hs4, _⟩ := rm4 hf
    rw [hs4, hC]
  · exact rm5
  · intro hq
    have hq2 : (applyUnsubscribe cfg (rehydrateNode s req0).1 req2).1.deltaResponses = [] := by
      rw [hR, hq]
    obtain ⟨ha, hb⟩ := rm6 hq2
    exact ⟨ha, by rw [hb, hN]⟩
  · intro hct cid hcid
    have hcid2 : alookup
        (applyUnsubscribe cfg (rehydrateNode s req0).1 req2).1.deltaCancellations
        (effectiveTypeUrl cfg req0) = some (some cid) := by rw [hC]; exact hcid
    have hrc := rm7 hct cid hcid2
    rw [heffs, cancelCount_append, cancelCount_append, cancelCount_append,
      e1c, huC, hcbC, hrc]
  · rw [heffs, observedNodes_append, observedNodes_append, observedNodes_append,
      e1o, huO, hcbO, rm3, hn2]
    simp
  · rw [rm8, au4]

theorem processAll_sends (cfg : Config) (s : ProcState) :
    ∃ k, sentNonces (processAll cfg s).2.2 = nonceRange s.streamNonce k ∧
      (processAll cfg s).2.1.streamNonce = s.streamNonce + k :=
  drainAux_sends cfg s.deltaResponses s

theorem reconcile_sends (cfg : Config) (s : ProcState) (t n : String) :
    ∃ k, sentNonces (reconcile cfg s t n).2.2 = nonceRange s.streamNonce k ∧
      (reconcile cfg s t n).2.1.streamNonce = s.streamNonce + k := by
  cases hcv : nonceCond s t n with
  | false => exact ⟨0, by simp [reconcile_false cfg s t n hcv, sentNonces, nonceRange_zero],
      by simp [reconcile_false cfg s t n hcv]⟩
  | true =>
    rcases hl : alookup s.deltaCancellations t with _ | oc
    · exact ⟨0, by simp [reconcile_no_handle cfg s t n hcv (Or.inl hl), sentNonces,
        nonceRange_zero], by simp [reconcile_no_handle cfg s t n hcv (Or.inl hl)]⟩
    · rcases oc with _ | cid
      · exact ⟨0, by simp [reconcile_no_handle cfg s t n hcv (Or.inr hl), sentNonces,
          nonceRange_zero], by simp [reconcile_no_handle cfg s t n hcv (Or.inr hl)]⟩
      · obtain ⟨k, hk, hks⟩ := processAll_sends cfg s
        rcases hp : processAll cfg s with ⟨ep, s1, de⟩
        rw [hp] at hk hks
        simp only at hk hks
        cases ep with
        | some e =>
          refine ⟨k, ?_, ?_⟩
          · rw [reconcile_handle_err cfg s t n cid e s1 de hcv hl hp]
            show sentNonces ([Effect.cancelInvoked cid] ++ de) = nonceRange s.streamNonce k
            rw [sentNonces_append, hk]
            simp [sentNonces]
          · rw [reconcile_handle_err cfg s t n cid e s1 de hcv hl hp]
            exact hks
        | none =>
          refine ⟨k, ?_, ?_⟩
          · rw [reconcile_handle_ok cfg s t n cid s1 de hcv hl hp]
            show sentNonces ([Effect.cancelInvoked cid] ++ (de ++ [Effect.createdWatch t
              s1.nextWatchId])) = nonceRange s.streamNonce k
            rw [sentNonces_append, sentNonces_append, hk]
            simp [sentNonces]
          · rw [reconcile_handle_ok cfg s t n cid s1 de hcv hl hp]
            exact hks

theorem handleRequest_sends (cfg : Config) (s : ProcState) (req0 : DeltaDiscoveryRequest) :
    ∃ k, sentNonces (handleRequest cfg s req0).2.2 = nonceRange s.streamNonce k ∧
      (handleRequest cfg s req0).2.1.streamNonce = s.streamNonce + k := by
  obtain ⟨e1w, e1c, e1o, e1cl, e1s, e1f⟩ := errorDetailLog_silent cfg req0
  obtain ⟨ru1, ru2, ru3, ru4, ru5, ru6⟩ := rehydrate_fst s req0
  rcases hpol : policeTypeUrl cfg (rehydrateNode s req0).2 with e | req2
  · exact ⟨0, by simp [handleRequest, hpol, e1s, nonceRange_zero],
      by simp [handleRequest, hpol, ru5]⟩
  · have huS : sentNonces (applyUnsubscribe cfg (rehydrateNode s req0).1 req2).2 = [] := by
      rcases applyUnsubscribe_effects cfg (rehydrateNode s req0).1 req2 with he | he <;> rw [he]
      · rfl
      · exact (unsubscribeLog_silent cfg _).2.2.2.2.1
    have huN : (applyUnsubscribe cfg (rehydrateNode s req0).1 req2).1.streamNonce
        = s.streamNonce := by
      rw [(applyUnsubscribe_fst cfg (rehydrateNode s req0).1 req2).2.2.2.2.1, ru5]
    have hcbS : sentNonces (if cfg.hasCallbacks then [Effect.onStreamDeltaRequest req2]
        else []) = [] := by
      cases cfg.hasCallbacks <;> simp [sentNonces]
    rcases hcb : (if cfg.hasCallbacks then cfg.onStreamDeltaRequestErr req2 else none)
        with _ | e
    · obtain ⟨k, hk, hks⟩ :=
        reconcile_sends cfg (applyUnsubscribe cfg (rehydrateNode s req0).1 req2).1
          req2.typeUrl (rehydrateNode s req0).2.responseNonce
      rcases hrec : reconcile cfg (applyUnsubscribe cfg (rehydrateNode s req0).1 req2).1
          req2.typeUrl (rehydrateNode s req0).2.responseNonce with ⟨er, s3, recEffs⟩
      rw [hrec] at hk hks
      simp only at hk hks
      rw [huN] at hk hks
      refine ⟨k, ?_, ?_⟩
      · simp only [handleRequest, hpol, hcb, hrec]
        rw [sentNonces_append, sentNonces_append, sentNonces_append, e1s, huS, hcbS, hk]
        simp
      · simp only [handleRequest, hpol, hcb, hrec]
        exact hks
    · refine ⟨0, ?_, ?_⟩
      · simp only [handleRequest, hpol, hcb]
        rw [sentNonces_append, sentNonces_append, e1s, huS, hcbS, nonceRange_zero]
        simp
      · simp only [handleRequest, hpol, hcb]
        rw [huN]
        simp

theorem process_closed (cfg : Config) (s : ProcState) (respOpt : Option DeltaResponse) :
    closedCount (process cfg s respOpt).2.2 = 0 := by
  rcases respOpt with _ | r
  · simp [process, send, closedCount]
  · rcases hd : r.ddr with e | out0
    · simp [process, send, hd, closedCount]
    · rcases hs : cfg.sendErr { out0 with nonce := toString (s.streamNonce + 1) } with _ | e
      · rcases hu : update r (toString (s.streamNonce + 1)) with ⟨st, _ | e2⟩ <;>
          cases hcb : cfg.hasCallbacks <;>
            simp [process, send, hd, hs, hu, hcb, closedCount]
      · cases hcb : cfg.hasCallbacks <;> simp [process, send, hd, hs, hcb, closedCount]

theorem drainAux_closed (cfg : Config) (q : List (Option DeltaResponse)) (s : ProcState) :
    closedCount (drainAux cfg q s).2.2 = 0 := by
  induction q generalizing s with
  | nil => simp [drainAux, closedCount]
  | cons r rest ih =>
    have hpc := process_closed cfg { s with deltaResponses := rest } r
    rcases hp : process cfg { s with deltaResponses := rest } r with ⟨e1, s1, effs1⟩
    rw [hp] at hpc
    simp only at hpc
    cases e1 with
    | some e => simp [drainAux, hp, hpc]
    | none =>
      have hqc := ih s1
      rcases hq : drainAux cfg rest s1 with ⟨e2, s2b, effs2⟩
      rw [hq] at hqc
      simp only at hqc
      simp [drainAux, hp, hq, closedCount_append, hpc, hqc]

theorem reconcile_closed (cfg : Config) (s : ProcState) (t n : String) :
    closedCount (reconcile cfg s t n).2.2 = 0 := by
  cases hcv : nonceCond s t n with
  | false => simp [reconcile_false cfg s t n hcv, closedCount]
  | true =>
    rcases hl : alookup s.deltaCancellations t with _ | oc
    · simp [reconcile_no_handle cfg s t n hcv (Or.inl hl), closedCount]
    · rcases oc with _ | cid
      · simp [reconcile_no_handle cfg s t n hcv (Or.inr hl), closedCount]
      · have hd := drainAux_closed cfg s.deltaResponses s
        rcases hp : processAll cfg s with ⟨ep, s1, de⟩
        rw [show processAll cfg s = drainAux cfg s.deltaResponses s from rfl] at hp
        rw [hp] at hd
        simp only at hd
        cases ep with
        | some e =>
          rw [reconcile_handle_err cfg s t n cid e s1 de hcv hl hp]
          show closedCount ([Effect.cancelInvoked cid] ++ de) = 0
          rw [closedCount_append, hd]
          rfl
        | none =>
          rw [reconcile_handle_ok cfg s t n cid s1 de hcv hl hp]
          show closedCount ([Effect.cancelInvoked cid] ++ (de ++ [Effect.createdWatch t
            s1.nextWatchId])) = 0
          rw [closedCount_append, closedCount_append, hd]
          rfl

theorem handleRequest_closed (cfg : Config) (s : ProcState) (req0 : DeltaDiscoveryRequest) :
    closedCount (handleRequest cfg s req0).2.2 = 0 := by
  obtain ⟨e1w, e1c, e1o, e1cl, e1s, e1f⟩ := errorDetailLog_silent cfg req0
  rcases hpol : policeTypeUrl cfg (rehydrateNode s req0).2 with e | req2
  · simp [handleRequest, hpol, e1cl]
  · have huC2 : closedCount (applyUnsubscribe cfg (rehydrateNode s req0).1 req2).2 = 0 := by
      rcases applyUnsubscribe_effects cfg (rehydrateNode s req0).1 req2 with he | he <;> rw [he]
      · rfl
      · exact (unsubscribeLog_silent cfg _).2.2.2.1
    have hcbCl : closedCount (if cfg.hasCallbacks then [Effect.onStreamDeltaRequest req2]
        else []) = 0 := by
      cases cfg.hasCallbacks <;> simp [closedCount]
    rcases hcb : (if cfg.hasCallbacks then cfg.onStreamDeltaRequestErr req2 else none)
        with _ | e
    · have hrc := reconcile_closed cfg (applyUnsubscribe cfg (rehydrateNode s req0).1 req2).1
        req2.typeUrl (rehydrateNode s req0).2.responseNonce
      rcases hrec : reconcile cfg (applyUnsubscribe cfg (rehydrateNode s req0).1 req2).1
          req2.typeUrl (rehydrateNode s req0).2.responseNonce with ⟨er, s3, recEffs⟩
      rw [hrec] at hrc
      simp only at hrc
      simp only [handleRequest, hpol, hcb, hrec]
      rw [closedCount_append, closedCount_append, closedCount_append, e1cl, huC2, hcbCl, hrc]
    · simp only [handleRequest, hpol, hcb]
      rw [closedCount_append, closedCount_append, e1cl, huC2, hcbCl]

theorem stepLoop_sends (cfg : Config) (s : ProcState) (ev : LoopEvent) :
    ∃ k, sentNonces (stepLoop cfg s ev).effects = nonceRange s.streamNonce k ∧
      (stepLoop cfg s ev).state.streamNonce = s.streamNonce + k := by
  cases ev with
  | ctxDone =>
    refine ⟨0, ?_, ?_⟩ <;> cases cfg.hasLog <;>
      simp [stepLoop, StepResult.effects, StepResult.state, sentNonces, nonceRange_zero]
  | enqueue r =>
    exact ⟨0, by simp [stepLoop, StepResult.effects, sentNonces, nonceRange_zero],
      by simp [stepLoop, StepResult.state]⟩
  | deliverResponse =>
    rcases hq : s.deltaResponses with _ | ⟨r, rest⟩
    · exact ⟨0, by simp [stepLoop, hq, StepResult.effects, sentNonces, nonceRange_zero],
        by simp [stepLoop, hq, StepResult.state]⟩
    · obtain ⟨k, hk, hks⟩ := process_sends cfg { s with deltaResponses := rest } r
      rcases hp : process cfg { s with deltaResponses := rest } r with ⟨e1, s1, effs⟩
      rw [hp] at hk hks
      simp only at hk hks
      cases e1 with
      | some e =>
        exact ⟨k, by simp [stepLoop, hq, hp, StepResult.effects, hk],
          by simp [stepLoop, hq, hp, StepResult.state, hks]⟩
      | none =>
        exact ⟨k, by simp [stepLoop, hq, hp, StepResult.effects, hk],
          by simp [stepLoop, hq, hp, StepResult.state, hks]⟩
  | reqChClosed =>
    exact ⟨0, by simp [stepLoop, StepResult.effects, sentNonces, nonceRange_zero],
      by simp [stepLoop, StepResult.state]⟩
  | nilRequest =>
    exact ⟨0, by simp [stepLoop, StepResult.effects, sentNonces, nonceRange_zero],
      by simp [stepLoop, StepResult.state]⟩
  | request req =>
    obtain ⟨k, hk, hks⟩ := handleRequest_sends cfg s req
    rcases hh : handleRequest cfg s req with ⟨e1, s1, effs⟩
    rw [hh] at hk hks
    simp only at hk hks
    cases e1 with
    | some e =>
      exact ⟨k, by simp [stepLoop, hh, StepResult.effects, hk],
        by simp [stepLoop, hh, StepResult.state, hks]⟩
    | none =>
      exact ⟨k, by simp [stepLoop, hh, StepResult.effects, hk],
        by simp [stepLoop, hh, StepResult.state, hks]⟩

theorem stepLoop_closed (cfg : Config) (s : ProcState) (ev : LoopEvent) :
    closedCount (stepLoop cfg s ev).effects = 0 := by
  cases ev with
  | ctxDone =>
    cases cfg.hasLog <;> simp [stepLoop, StepResult.effects, closedCount]
  | enqueue r => simp [stepLoop, StepResult.effects, closedCount]
  | deliverResponse =>
    rcases hq : s.deltaResponses with _ | ⟨r, rest⟩
    · simp [stepLoop, hq, StepResult.effects, closedCount]
    · have hpc := process_closed cfg { s with deltaResponses := rest } r
      rcases hp : process cfg { s with deltaResponses := rest } r with ⟨e1, s1, effs⟩
      rw [hp] at hpc
      simp only at hpc
      cases e1 <;> simp [stepLoop, hq, hp, StepResult.effects, hpc]
  | reqChClosed => simp [stepLoop, StepResult.effects, closedCount]
  | nilRequest => simp [stepLoop, StepResult.effects, closedCount]
  | request req =>
    have hhc := handleRequest_closed cfg s req
    rcases hh : handleRequest cfg s req with ⟨e1, s1, effs⟩
    rw [hh] at hhc
    simp only at hhc
    cases e1 <;> simp [stepLoop, hh, StepResult.effects, hhc]

theorem stepLoop_agree (cfg : Config) (s : ProcState) (ev : LoopEvent) (s1 : ProcState)
    (effs : List Effect) (h : stepLoop cfg s ev = .next s1 effs) (hag : noncesAgree s) :
    noncesAgree s1 := by
  cases ev with
  | ctxDone => simp [stepLoop] at h
  | enqueue r =>
    simp only [stepLoop, StepResult.next.injEq] at h
    obtain ⟨h1, h2⟩ := h
    subst h1
    exact agree_of_eq s _ rfl rfl hag
  | deliverResponse =>
    rcases hq : s.deltaResponses with _ | ⟨r, rest⟩
    · simp only [stepLoop, hq, StepResult.next.injEq] at h
      obtain ⟨h1, h2⟩ := h
      subst h1
      exact hag
    · rcases hp : process cfg { s with deltaResponses := rest } r with ⟨e1, s2, effs2⟩
      cases e1 with
      | some e => simp [stepLoop, hq, hp] at h
      | none =>
        simp only [stepLoop, hq, hp, StepResult.next.injEq] at h
        obtain ⟨h1, h2⟩ := h
        subst h1
        exact process_ok_agree cfg _ r _ effs2 hp (agree_of_eq s _ rfl rfl hag)
  | reqChClosed => simp [stepLoop] at h
  | nilRequest => simp [stepLoop] at h
  | request req =>
    rcases hh : handleRequest cfg s req with ⟨e1, s2, effs2⟩
    cases e1 with
    | some e => simp [stepLoop, hh] at h
    | none =>
      simp only [stepLoop, hh, StepResult.next.injEq] at h
      obtain ⟨h1, h2⟩ := h
      subst h1
      exact handleRequest_agree cfg s req _ effs2 hh hag

theorem runLoop_sends (cfg : Config) (evs : List LoopEvent) (s : ProcState) :
    ∃ k, sentNonces (runLoop cfg evs s).2.2 = nonceRange s.streamNonce k ∧
      (runLoop cfg evs s).2.1.streamNonce = s.streamNonce + k := by
  induction evs generalizing s with
  | nil => exact ⟨0, by simp [runLoop, sentNonces, nonceRange_zero], by simp [runLoop]⟩
  | cons ev evs ih =>
    obtain ⟨k1, hk1, hk1s⟩ := stepLoop_sends cfg s ev
    rcases hst : stepLoop cfg s ev with ⟨s1, effs⟩ | ⟨err, s1, effs⟩
    · rw [hst] at hk1 hk1s
      simp only [StepResult.effects, StepResult.state] at hk1 hk1s
      obtain ⟨k2, hk2, hk2s⟩ := ih s1
      rcases hr : runLoop cfg evs s1 with ⟨o, s2, effs2⟩
      rw [hr] at hk2 hk2s
      simp only at hk2 hk2s
      refine ⟨k1 + k2, ?_, ?_⟩
      · simp only [runLoop, hst, hr]
        rw [sentNonces_append, hk1, hk2, hk1s, nonceRange_append]
      · simp only [runLoop, hst, hr]
        rw [hk2s, hk1s]
        omega
    · rw [hst] at hk1 hk1s
      simp only [StepResult.effects, StepResult.state] at hk1 hk1s
      exact ⟨k1, by simp [runLoop, hst, hk1], by simp [runLoop, hst, hk1s]⟩

theorem runLoop_closed (cfg : Config) (evs : List LoopEvent) (s : ProcState) :
    closedCount (runLoop cfg evs s).2.2 = 0 := by
  induction evs generalizing s with
  | nil => simp [runLoop, closedCount]
  | cons ev evs ih =>
    have hc1 := stepLoop_closed cfg s ev
    rcases hst : stepLoop cfg s ev with ⟨s1, effs⟩ | ⟨err, s1, effs⟩
    · rw [hst] at hc1
      simp only [StepResult.effects] at hc1
      have hc2 := ih s1
      rcases hr : runLoop cfg evs s1 with ⟨o, s2, effs2⟩
      rw [hr] at hc2
      simp only at hc2
      simp only [runLoop, hst, hr]
      rw [closedCount_append, hc1, hc2]
    · rw [hst] at hc1
      simp only [StepResult.effects] at hc1
      simp [runLoop, hst, hc1]

theorem runLoop_agree (cfg : Config) (evs : List LoopEvent) (s s2 : ProcState)
    (effs : List Effect) (h : runLoop cfg evs s = (none, s2, effs)) (hag : noncesAgree s) :
    noncesAgree s2 := by
  induction evs generalizing s effs with
  | nil =>
    simp only [runLoop, Prod.mk.injEq, true_and] at h
    obtain ⟨h1, h2⟩ := h
    subst h1
    exact hag
  | cons ev evs ih =>
    rcases hst : stepLoop cfg s ev with ⟨s1, effs1⟩ | ⟨err, s1, effs1⟩
    · rcases hr : runLoop cfg evs s1 with ⟨o, s3, effs2⟩
      simp only [runLoop, hst, hr, Prod.mk.injEq] at h
      obtain ⟨h1, h2, h3⟩ := h
      subst h1 h2
      exact ih s1 effs2 hr (stepLoop_agree cfg s ev s1 effs1 hst hag)
    · simp [runLoop, hst] at h

theorem sentNonces_cancelList (l : List (String × Option Nat)) :
    sentNonces (l.filterMap fun p => Option.map Effect.cancelInvoked p.2) = [] := by
  induction l with
  | nil => rfl
  | cons p t ih =>
    rcases hp2 : p.2 with _ | i
    · simp only [List.filterMap_cons, hp2, Option.map_none]
      exact ih
    · simp only [List.filterMap_cons, hp2, Option.map_some]
      show sentNonces ([Effect.cancelInvoked i] ++
        (t.filterMap fun p => Option.map Effect.cancelInvoked p.2)) = []
      rw [sentNonces_append, ih]
      rfl

theorem closedCount_cancelList (l : List (String × Option Nat)) :
    closedCount (l.filterMap fun p => Option.map Effect.cancelInvoked p.2) = 0 := by
  induction l with
  | nil => rfl
  | cons p t ih =>
    rcases hp2 : p.2 with _ | i
    · simp only [List.filterMap_cons, hp2, Option.map_none]
      exact ih
    · simp only [List.filterMap_cons, hp2, Option.map_some]
      show closedCount ([Effect.cancelInvoked i] ++
        (t.filterMap fun p => Option.map Effect.cancelInvoked p.2)) = 0
      rw [closedCount_append, ih]
      rfl

theorem teardown_sends (cfg : Config) (s : ProcState) : sentNonces (teardown cfg s) = [] := by
  unfold teardown
  rw [sentNonces_append, sentNonces_cancelList]
  cases cfg.hasCallbacks <;> simp [sentNonces]

theorem teardown_closed (cfg : Config) (s : ProcState) :
    closedCount (teardown cfg s) = (if cfg.hasCallbacks then 1 else 0) := by
  unfold teardown
  rw [closedCount_append, closedCount_cancelList]
  cases cfg.hasCallbacks <;> simp [closedCount]

theorem nonceRange_zero_base (k : Nat) :
    nonceRange 0 k = (List.range k).map fun i => toString (i + 1) := by
  simp [nonceRange]

theorem initState_agree (cfg : Config) : noncesAgree (initState cfg) := by
  intro t n h
  simp [initState, alookup] at h

theorem stepLoop_request_next (cfg : Config) (s : ProcState) (req : DeltaDiscoveryRequest)
    (s1 : ProcState) (effs : List Effect) :
    stepLoop cfg s (.request req) = .next s1 effs ↔
      handleRequest cfg s req = (none, s1, effs) := by
  rcases hh : handleRequest cfg s req with ⟨e1, s2, effs2⟩
  cases e1 with
  | some e => simp [stepLoop, hh]
  | none => simp [stepLoop, hh]

/-! ## Claim theorems -/

/-- C1: for every inbound request whose handling runs to completion, a new
watch is created for the request's effective type URL iff that type URL has
no entry in `deltaNonces` (never seen on this stream) or the request's
response nonce equals the recorded last-sent nonce; when the nonce
mismatches, no watch is created and the cancellations map (hence the
existing cancel handle) is left in place. -/
theorem c1_watch_created_iff_nonce (cfg : Config) (s : ProcState)
    (req : DeltaDiscoveryRequest) (s1 : ProcState) (effs : List Effect)
    (h : stepLoop cfg s (.request req) = .next s1 effs) :
    createdWatchFor (effectiveTypeUrl cfg req) effs
        = nonceCond s (effectiveTypeUrl cfg req) req.responseNonce ∧
    (nonceCond s (effectiveTypeUrl cfg req) req.responseNonce = false →
      s1.deltaCancellations = s.deltaCancellations) := by
  have hh := (stepLoop_request_next cfg s req s1 effs).1 h
  have hm := handleRequest_main cfg s req s1 effs hh
  exact ⟨hm.1, hm.2.2.1⟩

/-- C1 witness: a first request for "T" on a fresh stream creates a watch. -/
theorem c1_witness :
    createdWatchFor (effectiveTypeUrl cfgPlain reqT) [Effect.createdWatch "T" 0]
        = nonceCond (initState cfgPlain) (effectiveTypeUrl cfgPlain reqT) reqT.responseNonce ∧
    (nonceCond (initState cfgPlain) (effectiveTypeUrl cfgPlain reqT) reqT.responseNonce = false →
      (⟨0, emptyNode, 1, [], [], [("T", some 0)], []⟩ : ProcState).deltaCancellations
        = (initState cfgPlain).deltaCancellations) :=
  c1_watch_created_iff_nonce cfgPlain (initState cfgPlain) reqT
    ⟨0, emptyNode, 1, [], [], [("T", some 0)], []⟩ [Effect.createdWatch "T" 0] rfl

/-- C2 counterexample: starting from a fresh stream, two consecutive
identical requests for type "T" with the same (empty) response nonce and
no response processed in between yield TWO watch creations, not one: the
nonce check depends only on `deltaNonces`, which watch creation does not
modify, so the second request also passes it, cancels the first watch and
registers a replacement. -/
theorem c2_counterexample :
    watchCreations (processDelta cfgPlain [.request reqT, .request reqT]).2.2 = 2 ∧
    watchCreations (processDelta cfgPlain [.request reqT, .request reqT]).2.2 ≠ 1 := by
  constructor
  · rfl
  · decide

/-- C2 amended: two consecutive requests for the same type URL with the
same nonce, with the response queue empty and the nonce condition holding,
yield exactly one watch creation PER REQUEST, two in total; the second
request cancels the watch registered by the first before creating its
replacement. -/
theorem c2_two_requests_two_watches (cfg : Config) (s : ProcState)
    (req : DeltaDiscoveryRequest) (s1 s2 : ProcState) (e1 e2 : List Effect)
    (hq : s.deltaResponses = [])
    (hc : nonceCond s (effectiveTypeUrl cfg req) req.responseNonce = true)
    (h1 : stepLoop cfg s (.request req) = .next s1 e1)
    (h2 : stepLoop cfg s1 (.request req) = .next s2 e2) :
    watchCreations e1 = 1 ∧ watchCreations e2 = 1 ∧ cancelCount e2 = 1 := by
  have hh1 := (stepLoop_request_next cfg s req s1 e1).1 h1
  have hh2 := (stepLoop_request_next cfg s1 req s2 e2).1 h2
  have hm1 := handleRequest_main cfg s req s1 e1 hh1
  have hm2 := handleRequest_main cfg s1 req s2 e2 hh2
  obtain ⟨hq1, hn1⟩ := hm1.2.2.2.2.1 hq
  have hc1 : nonceCond s1 (effectiveTypeUrl cfg req) req.responseNonce = true := by
    unfold nonceCond at hc ⊢
    rw [hn1]
    exact hc
  obtain ⟨w, hw⟩ := hm1.2.2.2.1 hc
  refine ⟨?_, ?_, ?_⟩
  · rw [hm1.2.1, hc]
    rfl
  · rw [hm2.2.1, hc1]
    rfl
  · exact hm2.2.2.2.2.2.1 hc1 w hw

/-- C2 witness: the two-request scenario on a fresh stream. -/
theorem c2_witness :
    watchCreations [Effect.createdWatch "T" 0] = 1 ∧
    watchCreations [Effect.cancelInvoked 0, Effect.createdWatch "T" 1] = 1 ∧
    cancelCount [Effect.cancelInvoked 0, Effect.createdWatch "T" 1] = 1 :=
  c2_two_requests_two_watches cfgPlain (initState cfgPlain) reqT
    ⟨0, emptyNode, 1, [], [], [("T", some 0)], []⟩
    ⟨0, emptyNode, 2, [], [], [("T", some 1)], []⟩
    [Effect.createdWatch "T" 0] [Effect.cancelInvoked 0, Effect.createdWatch "T" 1]
    rfl rfl rfl rfl

/-- C3: when a replacement watch is registered for a type URL that already
has a non-nil cancel handle, the trace is: silent prefix (no cancels, no
creations, no sends), then the cancel invocation, then the drain (one
response processed per enqueued entry, with no cancels or creations), then
the watch creation; the response queue is empty afterwards. -/
theorem c3_cancel_drain_create (cfg : Config) (s : ProcState)
    (req : DeltaDiscoveryRequest) (s1 : ProcState) (effs : List Effect) (cid : Nat)
    (h : stepLoop cfg s (.request req) = .next s1 effs)
    (hc : nonceCond s (effectiveTypeUrl cfg req) req.responseNonce = true)
    (hl : alookup s.deltaCancellations (effectiveTypeUrl cfg req) = some (some cid)) :
    ∃ pre de wid,
      effs = pre ++ Effect.cancelInvoked cid :: de
        ++ [Effect.createdWatch (effectiveTypeUrl cfg req) wid] ∧
      cancelCount pre = 0 ∧ watchCreations pre = 0 ∧ sentNonces pre = [] ∧
      cancelCount de = 0 ∧ watchCreations de = 0 ∧
      (sentNonces de).length = s.deltaResponses.length ∧
      s1.deltaResponses = [] := by
  have hh := (stepLoop_request_next cfg s req s1 effs).1 h
  obtain ⟨req2, recEffs, hpol, hcb, hrec, heffs⟩ := handleRequest_ok_inv cfg s req s1 effs hh
  have hreq2 := police_ok cfg _ req2 hpol
  have ht : req2.typeUrl = effectiveTypeUrl cfg req := by
    rw [hreq2]
    simp [effectiveTypeUrl, rehydrate_typeUrl]
  obtain ⟨ru1, ru2, ru3, ru4, ru5, ru6⟩ := rehydrate_fst s req
  obtain ⟨au1, au2, au3, au4, au5, au6⟩ :=
    applyUnsubscribe_fst cfg (rehydrateNode s req).1 req2
  have hN : (applyUnsubscribe cfg (rehydrateNode s req).1 req2).1.deltaNonces
      = s.deltaNonces := by rw [au1, ru1]
  have hC : (applyUnsubscribe cfg (rehydrateNode s req).1 req2).1.deltaCancellations
      = s.deltaCancellations := by rw [au2, ru2]
  have hR : (applyUnsubscribe cfg (rehydrateNode s req).1 req2).1.deltaResponses
      = s.deltaResponses := by rw [au3, ru4]
  have hct : nonceCond (applyUnsubscribe cfg (rehydrateNode s req).1 req2).1 req2.typeUrl
      (rehydrateNode s req).2.responseNonce = true := by
    unfold nonceCond
    rw [hN, ht, rehydrate_responseNonce]
    unfold nonceCond at hc
    exact hc
  have hl2 : alookup (applyUnsubscribe cfg (rehydrateNode s req).1 req2).1.deltaCancellations
      req2.typeUrl = some (some cid) := by
    rw [hC, ht]
    exact hl
  rcases hp : processAll cfg (applyUnsubscribe cfg (rehydrateNode s req).1 req2).1
      with ⟨ep, sd, de⟩
  cases ep with
  | some e =>
    rw [reconcile_handle_err cfg _ req2.typeUrl _ cid e sd de hct hl2 hp] at hrec
    simp at hrec
  | none =>
    rw [reconcile_handle_ok cfg _ req2.typeUrl _ cid sd de hct hl2 hp] at hrec
    injection hrec with hx hy
    injection hy with hy1 hy2
    obtain ⟨pw, pc, po, pcl, ps, pn, pnw, pdr, pag⟩ := processAll_ok cfg _ sd de hp
    obtain ⟨e1w, e1c, e1o, e1cl, e1s, e1f⟩ := errorDetailLog_silent cfg req
    have huC : cancelCount (applyUnsubscribe cfg (rehydrateNode s req).1 req2).2 = 0 := by
      rcases applyUnsubscribe_effects cfg (rehydrateNode s req).1 req2 with he | he <;> rw [he]
      · rfl
      · exact (unsubscribeLog_silent cfg _).2.1
    have huW : watchCreations (applyUnsubscribe cfg (rehydrateNode s req).1 req2).2 = 0 := by
      rcases applyUnsubscribe_effects cfg (rehydrateNode s req).1 req2 with he | he <;> rw [he]
      · rfl
      · exact (unsubscribeLog_silent cfg _).1
    have huS : sentNonces (applyUnsubscribe cfg (rehydrateNode s req).1 req2).2 = [] := by
      rcases applyUnsubscribe_effects cfg (rehydrateNode s req).1 req2 with he | he <;> rw [he]
      · rfl
      · exact (unsubscribeLog_silent cfg _).2.2.2.2.1
    have hcbC : cancelCount (if cfg.hasCallbacks then [Effect.onStreamDeltaRequest req2]
        else []) = 0 := by
      cases cfg.hasCallbacks <;> simp [cancelCount]
    have hcbW : watchCreations (if cfg.hasCallbacks then [Effect.onStreamDeltaRequest req2]
        else []) = 0 := by
      cases cfg.hasCallbacks <;> simp [watchCreations]
    have hcbS : sentNonces (if cfg.hasCallbacks then [Effect.onStreamDeltaRequest req2]
        else []) = [] := by
      cases cfg.hasCallbacks <;> simp [sentNonces]
    refine ⟨errorDetailLog cfg req ++ (applyUnsubscribe cfg (rehydrateNode s req).1 req2).2
      ++ (if cfg.hasCallbacks then [Effect.onStreamDeltaRequest req2] else []),
      de, sd.nextWatchId, ?_, ?_, ?_, ?_, pc, pw, ?_, ?_⟩
    · rw [heffs, ← hy2, ht]
      simp [List.append_assoc]
    · rw [cancelCount_append, cancelCount_append, e1c, huC, hcbC]
    · rw [watchCreations_append, watchCreations_append, e1w, huW, hcbW]
    · rw [sentNonces_append, sentNonces_append, e1s, huS, hcbS]
      rfl
    · rw [ps, hR]
    · rw [← hy1]
      exact pdr

/-- C3 witness: an ACK arriving while a watch for "T" is registered. -/
theorem c3_witness :
    ∃ pre de wid,
      [Effect.cancelInvoked 0, Effect.createdWatch "T" 1]
        = pre ++ Effect.cancelInvoked 0 :: de
          ++ [Effect.createdWatch (effectiveTypeUrl cfgPlain reqT) wid] ∧
      cancelCount pre = 0 ∧ watchCreations pre = 0 ∧ sentNonces pre = [] ∧
      cancelCount de = 0 ∧ watchCreations de = 0 ∧
      (sentNonces de).length = stateAfterWatch.deltaResponses.length ∧
      (⟨0, emptyNode, 2, [], [], [("T", some 1)], []⟩ : ProcState).deltaResponses = [] :=
  c3_cancel_drain_create cfgPlain stateAfterWatch reqT
    ⟨0, emptyNode, 2, [], [], [("T", some 1)], []⟩
    [Effect.cancelInvoked 0, Effect.createdWatch "T" 1] 0 rfl rfl rfl

/-- C4 counterexample: the deferred teardown is installed BEFORE the
stream-open callback runs, so when OnDeltaStreamOpen fails the error is
returned but OnDeltaStreamClosed IS still invoked (as the code's own
doc comment states), contradicting the claim that no teardown happens
and stream-closed is not called. -/
theorem c4_counterexample :
    (processDelta cfgOpenFail []).1 = some (some (.callbackError "boom")) ∧
    Effect.onDeltaStreamClosed ∈ (processDelta cfgOpenFail []).2.2 := by
  constructor
  · rfl
  · decide

/-- C4 amended: if stream-open fails, processDelta returns that error
immediately and no cancel handles are invoked (none exist yet), but the
deferred teardown still runs and OnDeltaStreamClosed IS invoked; on every
terminating path, the stream-closed callback runs exactly once when
callbacks are installed (and never otherwise), regardless of whether
stream-open succeeded. -/
theorem c4_open_fail_teardown :
    (∀ (cfg : Config) (evs : List LoopEvent) (e : String),
      cfg.hasCallbacks = true → cfg.onDeltaStreamOpenErr = some e →
      processDelta cfg evs = (some (some (.callbackError e)), initState cfg,
        [Effect.onDeltaStreamOpen cfg.defaultTypeURL, Effect.onDeltaStreamClosed])) ∧
    (∀ (cfg : Config) (evs : List LoopEvent) (err : Option Err) (s : ProcState)
        (effs : List Effect),
      processDelta cfg evs = (some err, s, effs) →
      closedCount effs = (if cfg.hasCallbacks then 1 else 0)) := by
  constructor
  · intro cfg evs e hcb he
    simp only [processDelta, hcb, he, if_true]
    simp [teardown, initState, hcb]
  · intro cfg evs err s effs h
    rcases ho : (if cfg.hasCallbacks then cfg.onDeltaStreamOpenErr else none) with _ | e
    · have hc2 := runLoop_closed cfg evs (initState cfg)
      rcases hr : runLoop cfg evs (initState cfg) with ⟨o, s2, effs2⟩
      rw [hr] at hc2
      simp only at hc2
      cases o with
      | none => simp [processDelta, ho, hr] at h
      | some err2 =>
        simp only [processDelta, ho, hr, Prod.mk.injEq] at h
        obtain ⟨h1, h2, h3⟩ := h
        subst h3
        rw [closedCount_append, closedCount_append, hc2, teardown_closed]
        cases hcbv : cfg.hasCallbacks <;> simp [hcbv, closedCount]
    · have hcb : cfg.hasCallbacks = true := by
        cases hcbv : cfg.hasCallbacks
        · rw [hcbv] at ho
          simp at ho
        · rfl
      simp only [processDelta, ho, Prod.mk.injEq] at h
      obtain ⟨h1, h2, h3⟩ := h
      subst h3
      rw [closedCount_append, teardown_closed, hcb]
      simp [hcb, closedCount]

/-- C4 witness: concrete open-failure run. -/
theorem c4_witness :
    processDelta cfgOpenFail [] = (some (some (.callbackError "boom")), initState cfgOpenFail,
      [Effect.onDeltaStreamOpen cfgOpenFail.defaultTypeURL, Effect.onDeltaStreamClosed]) :=
  c4_open_fail_teardown.1 cfgOpenFail [] "boom" rfl rfl

/-- C5 counterexample: a request carrying a non-nil ErrorDetail whose type
URL is unseen on the stream DOES create a new watch: ErrorDetail plays no
role in the watch-reconciliation test, contradicting the claim that a NACK
never triggers a watch for its type URL. -/
theorem c5_counterexample :
    reqNackT.errorDetail = some "bad" ∧
    createdWatchFor "T" (processDelta cfgPlain [.request reqNackT]).2.2 = true := by
  constructor
  · rfl
  · decide

/-- C5 amended: a request with a non-nil ErrorDetail is logged (when a
logger is installed) and handling continues normally; the error detail
itself neither terminates the stream nor affects watch creation, which is
governed solely by the nonce condition (so a NACK whose nonce matches the
last-sent nonce, or whose type is unseen, does create a watch). -/
theorem c5_nack_logged_watch_by_nonce (cfg : Config) (s : ProcState)
    (req : DeltaDiscoveryRequest) (d : String) (s1 : ProcState) (effs : List Effect)
    (hd : req.errorDetail = some d) (hlog : cfg.hasLog = true)
    (h : stepLoop cfg s (.request req) = .next s1 effs) :
    Effect.loggedError ("received error from envoy: " ++ d) ∈ effs ∧
    createdWatchFor (effectiveTypeUrl cfg req) effs
      = nonceCond s (effectiveTypeUrl cfg req) req.responseNonce := by
  have hh := (stepLoop_request_next cfg s req s1 effs).1 h
  have hm := handleRequest_main cfg s req s1 effs hh
  refine ⟨?_, hm.1⟩
  obtain ⟨req2, recEffs, hpol, hcb, hrec, heffs⟩ := handleRequest_ok_inv cfg s req s1 effs hh
  rw [heffs]
  have hlogf : errorDetailLog cfg req
      = [Effect.loggedError ("received error from envoy: " ++ d)] := by
    simp [errorDetailLog, hd, hlog]
  simp [hlogf]

/-- C5 witness: a NACK for unseen type "T" with a logger installed. -/
theorem c5_witness :
    Effect.loggedError ("received error from envoy: " ++ "bad") ∈
      ([Effect.loggedError "received error from envoy: bad",
        Effect.onStreamDeltaRequest ⟨some emptyNode, "T", "", [], some "bad"⟩,
        Effect.createdWatch "T" 0] : List Effect) ∧
    createdWatchFor (effectiveTypeUrl cfgCb reqNackT)
        [Effect.loggedError "received error from envoy: bad",
         Effect.onStreamDeltaRequest ⟨some emptyNode, "T", "", [], some "bad"⟩,
         Effect.createdWatch "T" 0]
      = nonceCond (initState cfgCb) (effectiveTypeUrl cfgCb reqNackT)
          reqNackT.responseNonce :=
  c5_nack_logged_watch_by_nonce cfgCb (initState cfgCb) reqNackT "bad"
    ⟨0, emptyNode, 1, [], [], [("T", some 0)], []⟩
    [Effect.loggedError "received error from envoy: bad",
     Effect.onStreamDeltaRequest ⟨some emptyNode, "T", "", [], some "bad"⟩,
     Effect.createdWatch "T" 0]
    rfl rfl rfl

/-- C6: on every stream, the sequence of nonces stamped on the responses
handed to the transport is exactly "1", "2", ..., k in order (the decimal
forms of the per-stream counter), where k is the final counter value; in
particular the n-th response sent carries nonce `toString n`, the first
response carries "1", and the nonces strictly increase as integers. -/
theorem c6_nonce_sequence (cfg : Config) (evs : List LoopEvent) :
    sentNonces (processDelta cfg evs).2.2 =
      (List.range (processDelta cfg evs).2.1.streamNonce).map (fun i => toString (i + 1)) := by
  rcases ho : (if cfg.hasCallbacks then cfg.onDeltaStreamOpenErr else none) with _ | e
  · obtain ⟨k, hk, hks⟩ := runLoop_sends cfg evs (initState cfg)
    rcases hr : runLoop cfg evs (initState cfg) with ⟨o, s2, effs2⟩
    rw [hr] at hk hks
    simp only at hk hks
    have h0 : (initState cfg).streamNonce = 0 := rfl
    rw [h0] at hk hks
    have hOpenS : sentNonces (if cfg.hasCallbacks
        then [Effect.onDeltaStreamOpen cfg.defaultTypeURL] else []) = [] := by
      cases cfg.hasCallbacks <;> simp [sentNonces]
    cases o with
    | none =>
      simp only [processDelta, ho, hr]
      rw [sentNonces_append, hOpenS, hk, hks]
      simp [nonceRange_zero_base]
    | some err2 =>
      simp only [processDelta, ho, hr]
      rw [sentNonces_append, sentNonces_append, hOpenS, hk, teardown_sends, hks]
      simp [nonceRange_zero_base]
  · simp only [processDelta, ho]
    rw [sentNonces_append, teardown_sends]
    have hOpenS : sentNonces (if cfg.hasCallbacks
        then [Effect.onDeltaStreamOpen cfg.defaultTypeURL] else []) = [] := by
      cases cfg.hasCallbacks <;> simp [sentNonces]
    rw [hOpenS]
    simp [initState]

/-- C7: after every call to process that returns nil, for the response's
type URL the nonces map holds the newly generated nonce, the cancellations
entry is nil (present with no handle), and the stream-state entry carries
that same nonce; and along any still-running run of the loop from the
initial state, every type URL with an entry in deltaNonces has a
stream-state entry whose Nonce field agrees with it. -/
theorem c7_state_agreement :
    (∀ (cfg : Config) (s : ProcState) (r : DeltaResponse) (s2 : ProcState)
        (effs : List Effect),
      process cfg s (some r) = (none, s2, effs) →
      alookup s2.deltaNonces r.req.typeUrl = some (toString (s.streamNonce + 1)) ∧
      alookup s2.deltaCancellations r.req.typeUrl = some none ∧
      ∃ ss, alookup s2.deltaStreamStates r.req.typeUrl = some ss ∧
        ss.nonce = toString (s.streamNonce + 1)) ∧
    (∀ (cfg : Config) (evs : List LoopEvent) (s2 : ProcState) (effs : List Effect),
      runLoop cfg evs (initState cfg) = (none, s2, effs) → noncesAgree s2) := by
  constructor
  · intro cfg s r s2 effs h
    obtain ⟨r2, out0, sv, vm, hro, hd, hsv, hvm, hs, hst, hef⟩ :=
      process_ok_inv cfg s (some r) s2 effs h
    injection hro with hro2
    subst hro2 hst
    exact ⟨alookup_ainsert_self _ _ _, alookup_ainsert_self _ _ _,
      ⟨_, alookup_ainsert_self _ _ _, rfl⟩⟩
  · intro cfg evs s2 effs h
    exact runLoop_agree cfg evs _ s2 effs h (initState_agree cfg)

/-- C7 witness: a concrete successful process and the initial agreement. -/
theorem c7_witness :
    (alookup (⟨1, emptyNode, 0, [("T", ⟨"1", "v1", [("c1", "a")]⟩)], [], [("T", none)],
        [("T", "1")]⟩ : ProcState).deltaNonces respT.req.typeUrl
        = some (toString ((initState cfgPlain).streamNonce + 1)) ∧
     alookup (⟨1, emptyNode, 0, [("T", ⟨"1", "v1", [("c1", "a")]⟩)], [], [("T", none)],
        [("T", "1")]⟩ : ProcState).deltaCancellations respT.req.typeUrl = some none ∧
     ∃ ss, alookup (⟨1, emptyNode, 0, [("T", ⟨"1", "v1", [("c1", "a")]⟩)], [], [("T", none)],
        [("T", "1")]⟩ : ProcState).deltaStreamStates respT.req.typeUrl = some ss ∧
       ss.nonce = toString ((initState cfgPlain).streamNonce + 1)) ∧
    noncesAgree (initState cfgPlain) :=
  ⟨c7_state_agreement.1 cfgPlain (initState cfgPlain) respT
      ⟨1, emptyNode, 0, [("T", ⟨"1", "v1", [("c1", "a")]⟩)], [], [("T", none)], [("T", "1")]⟩
      [Effect.sentResponse ⟨"1", "p"⟩] rfl,
   c7_state_agreement.2 cfgPlain [] (initState cfgPlain) [] rfl⟩

/-- C8: a request with a non-nil Node replaces the stream's remembered
node, and a later request with nil Node is observed by the stream-request
callback with its Node field populated from the remembered node. -/
theorem c8_node_rehydration (cfg : Config) (s : ProcState)
    (r1 r2 : DeltaDiscoveryRequest) (nd : Node) (s1 s2 : ProcState)
    (e1 e2 : List Effect)
    (hn1 : r1.node = some nd)
    (h1 : stepLoop cfg s (.request r1) = .next s1 e1)
    (hn2 : r2.node = none)
    (h2 : stepLoop cfg s1 (.request r2) = .next s2 e2)
    (hcb : cfg.hasCallbacks = true) :
    s1.node = nd ∧ observedNodes e2 = [some nd] := by
  have hh1 := (stepLoop_request_next cfg s r1 s1 e1).1 h1
  have hh2 := (stepLoop_request_next cfg s1 r2 s2 e2).1 h2
  have hm1 := handleRequest_main cfg s r1 s1 e1 hh1
  have hm2 := handleRequest_main cfg s1 r2 s2 e2 hh2
  have hs1node : s1.node = nd := by
    rw [hm1.2.2.2.2.2.2.2, (rehydrate_node_some s r1 nd hn1).1]
  refine ⟨hs1node, ?_⟩
  rw [hm2.2.2.2.2.2.2.1, hcb, (rehydrate_node_none s1 r2 hn2).2, hs1node]
  simp

/-- C8 witness: first request sets node "n1", second with nil node is
observed with node "n1". -/
theorem c8_witness :
    (⟨0, ⟨"n1"⟩, 1, [], [], [("T", some 0)], []⟩ : ProcState).node = (⟨"n1"⟩ : Node) ∧
    observedNodes [Effect.onStreamDeltaRequest ⟨some ⟨"n1"⟩, "T", "", [], none⟩,
      Effect.cancelInvoked 0, Effect.createdWatch "T" 1] = [some ⟨"n1"⟩] :=
  c8_node_rehydration cfgCb (initState cfgCb) reqNode reqT ⟨"n1"⟩
    ⟨0, ⟨"n1"⟩, 1, [], [], [("T", some 0)], []⟩
    ⟨0, ⟨"n1"⟩, 2, [], [], [("T", some 1)], []⟩
    [Effect.onStreamDeltaRequest ⟨some ⟨"n1"⟩, "T", "", [], none⟩, Effect.createdWatch "T" 0]
    [Effect.onStreamDeltaRequest ⟨some ⟨"n1"⟩, "T", "", [], none⟩,
     Effect.cancelInvoked 0, Effect.createdWatch "T" 1]
    rfl rfl rfl rfl rfl

/-- C9: in Aggregated mode an empty request type URL makes the request
step return INVALID_ARGUMENT with only the error-detail log emitted —
no stream-request callback, no watch creation; in single-type mode an
empty type URL is filled with the default, and handling is identical to
that of the request with the default type URL written in. -/
theorem c9_type_url_policing :
    (∀ (cfg : Config) (s : ProcState) (req : DeltaDiscoveryRequest),
      cfg.defaultTypeURL = AnyType → req.typeUrl = "" →
      stepLoop cfg s (.request req)
        = .stop (some (.invalidArgument "type URL is required for ADS"))
            (rehydrateNode s req).1 (errorDetailLog cfg req) ∧
      observedCount (errorDetailLog cfg req) = 0 ∧
      watchCreations (errorDetailLog cfg req) = 0) ∧
    (∀ (cfg : Config) (s : ProcState) (req : DeltaDiscoveryRequest),
      cfg.defaultTypeURL ≠ AnyType → req.typeUrl = "" →
      stepLoop cfg s (.request req)
        = stepLoop cfg s (.request { req with typeUrl := cfg.defaultTypeURL })) := by
  constructor
  · intro cfg s req hd ht
    have hpol : policeTypeUrl cfg (rehydrateNode s req).2
        = .error (.invalidArgument "type URL is required for ADS") :=
      police_ads cfg _ hd (by rw [rehydrate_typeUrl]; exact ht)
    refine ⟨?_, ?_, ?_⟩
    · simp [stepLoop, handleRequest, hpol]
    · have := (errorDetailLog_silent cfg req).2.2.1
      simp [observedCount, this]
    · exact (errorDetailLog_silent cfg req).1
  · intro cfg s req hd ht
    have hne : cfg.defaultTypeURL ≠ "" := hd
    cases hn : req.node with
    | some n =>
      simp [stepLoop, handleRequest, rehydrateNode, hn, policeTypeUrl, errorDetailLog,
        AnyType, ht, hne]
    | none =>
      simp [stepLoop, handleRequest, rehydrateNode, hn, policeTypeUrl, errorDetailLog,
        AnyType, ht, hne]

/-- C9 witness: concrete ADS rejection and single-type defaulting. -/
theorem c9_witness :
    (stepLoop cfgAds (initState cfgAds) (.request reqEmptyT)
        = .stop (some (.invalidArgument "type URL is required for ADS"))
            (rehydrateNode (initState cfgAds) reqEmptyT).1
            (errorDetailLog cfgAds reqEmptyT) ∧
      observedCount (errorDetailLog cfgAds reqEmptyT) = 0 ∧
      watchCreations (errorDetailLog cfgAds reqEmptyT) = 0) ∧
    stepLoop cfgPlain (initState cfgPlain) (.request reqEmptyT)
      = stepLoop cfgPlain (initState cfgPlain)
          (.request { reqEmptyT with typeUrl := cfgPlain.defaultTypeURL }) :=
  ⟨c9_type_url_policing.1 cfgAds (initState cfgAds) reqEmptyT rfl rfl,
   c9_type_url_policing.2 cfgPlain (initState cfgPlain) reqEmptyT (by decide) rfl⟩

/-- C10 counterexample: when GetSystemVersion fails after send succeeded,
the Go multi-assignment overwrites deltaStreamStates at the type URL with
the ZERO StreamState rather than keeping its previous value, refuting the
claim that the entry keeps its previous value. -/
theorem c10_counterexample :
    alookup stateWithT.deltaStreamStates "T" = some ⟨"old", "v0", [("a", "1")]⟩ ∧
    (process cfgPlain stateWithT (some respTBadSV)).1
      = some (.systemVersionError "sv boom") ∧
    alookup (process cfgPlain stateWithT (some respTBadSV)).2.1.deltaStreamStates "T"
      = some zeroStreamState ∧
    zeroStreamState ≠ (⟨"old", "v0", [("a", "1")]⟩ : StreamState) := by
  refine ⟨rfl, rfl, rfl, ?_⟩
  decide

/-- C10 amended: if update fails (system version or version map) after a
successful send, process terminates with that error and the mutation is
not atomic: the response went out with the fresh nonce, deltaNonces holds
that nonce, deltaCancellations is nil for the type, while the
stream-state entry is overwritten with the zero StreamState, whose empty
Nonce disagrees with the nonempty fresh nonce recorded in deltaNonces. -/
theorem c10_partial_update (cfg : Config) (s : ProcState) (r : DeltaResponse)
    (out0 : DeltaDiscoveryResponse) (e : Err)
    (hd : r.ddr = .ok out0)
    (hs : cfg.sendErr { out0 with nonce := toString (s.streamNonce + 1) } = none)
    (hu : (update r (toString (s.streamNonce + 1))).2 = some e) :
    (process cfg s (some r)).1 = some e ∧
    sentNonces (process cfg s (some r)).2.2 = [toString (s.streamNonce + 1)] ∧
    alookup (process cfg s (some r)).2.1.deltaNonces r.req.typeUrl
      = some (toString (s.streamNonce + 1)) ∧
    alookup (process cfg s (some r)).2.1.deltaCancellations r.req.typeUrl = some none ∧
    alookup (process cfg s (some r)).2.1.deltaStreamStates r.req.typeUrl
      = some zeroStreamState ∧
    toString (s.streamNonce + 1) ≠ zeroStreamState.nonce := by
  have hp := process_update_err cfg s r out0 e hd hs hu
  rw [hp]
  refine ⟨rfl, ?_, alookup_ainsert_self _ _ _, alookup_ainsert_self _ _ _,
    alookup_ainsert_self _ _ _, ?_⟩
  · cases hcb : cfg.hasCallbacks <;> simp [hcb, sentNonces]
  · show toString (s.streamNonce + 1) ≠ ""
    exact toString_nat_ne_empty _

/-- C10 witness: concrete failing update on an established state. -/
theorem c10_witness :
    (process cfgPlain stateWithT (some respTBadSV)).1
        = some (.systemVersionError "sv boom") ∧
    sentNonces (process cfgPlain stateWithT (some respTBadSV)).2.2
        = [toString (stateWithT.streamNonce + 1)] ∧
    alookup (process cfgPlain stateWithT (some respTBadSV)).2.1.deltaNonces
        respTBadSV.req.typeUrl = some (toString (stateWithT.streamNonce + 1)) ∧
    alookup (process cfgPlain stateWithT (some respTBadSV)).2.1.deltaCancellations
        respTBadSV.req.typeUrl = some none ∧
    alookup (process cfgPlain stateWithT (some respTBadSV)).2.1.deltaStreamStates
        respTBadSV.req.typeUrl = some zeroStreamState ∧
    toString (stateWithT.streamNonce + 1) ≠ zeroStreamState.nonce :=
  c10_partial_update cfgPlain stateWithT respTBadSV ⟨"", "p"⟩
    (.systemVersionError "sv boom") rfl rfl rfl

end DeltaServer
